import Mathlib

/-!
Verification of the langread content-acquisition pipeline.

Shallow embedding of the core pipeline of the repository:
* `src/src/scrapers/cache.py`   — the TTL query cache (`ArticleCache`);
* `src/src/scrapers/agent.py`   — discovery (`search_web`), extraction
  (`extract_content`) and synthesis (`ContentAgent.group_and_rewrite_articles`);
* `src/src/models/database.py`  — tag creation and article/tag association
  (`DatabaseService.create_tag`, `add_tag_to_article`, `remove_tag_from_article`);
* `src/src/api/main.py`         — the bulk-operation orchestrator
  (`process_bulk_fetch`, `fetch_step`, `aggregate_step`, `rewrite_step`,
  `extract_tags_from_article`).

Python strings are modelled by `String`, floats by `ℚ`, wall-clock instants by
`ℤ` (seconds), Mongo documents by Lean structures, and the Mongo collections by
lists of those structures.  Calls to external services (the LLM, the network)
are modelled by explicit parameters carrying the observed outcome of the call,
with `Option`/`Except` encoding a raised exception.
-/

namespace Langread

/-! ## Data model (`src/src/scrapers/agent.py`, pydantic models) -/

/-- `ContentSection` from `agent.py`: one ordered unit of an article body. -/
structure ContentSection where
  type : String
  content : String
  caption : Option String := none
  order : ℕ
  deriving DecidableEq, Repr

/-- `ArticleContent` from `agent.py` (the `date_published` timestamp is not
modelled; no claim mentions it). -/
structure ArticleContent where
  title : String
  url : String
  source : String
  language : String
  content : List ContentSection
  topics : List String
  deriving DecidableEq, Repr

/-! ## Query cache (`src/src/scrapers/cache.py`) -/

/-- Python `str.lower()`, character by character (ASCII letters; the embedding
does not model Unicode case folding beyond ASCII). -/
def pyLower (s : String) : String := ⟨s.data.map Char.toLower⟩

/-- Python `str.strip()`: drop leading and trailing whitespace. -/
def pyStrip (s : String) : String :=
  ⟨(((s.data.dropWhile Char.isWhitespace).reverse.dropWhile Char.isWhitespace).reverse)⟩

/-- Python `query.replace(' ', '_')` for the single-character pattern used by
`_get_cache_key`: each space becomes one underscore. -/
def replaceSpaces (s : String) : String :=
  ⟨s.data.map fun c => if c = ' ' then '_' else c⟩

/-- `ArticleCache._get_cache_key` (cache.py lines 75-81):
`query = query.lower().strip()`, then `key = f"{language}_{query.replace(' ', '_')}"`. -/
def cacheKey (query language : String) : String :=
  language ++ "_" ++ replaceSpaces (pyStrip (pyLower query))

/-- One cache file as written by `ArticleCache.set`: the record
`{query, language, articles, timestamp, logs}`.  The timestamp is seconds. -/
structure CacheFile where
  query : String
  language : String
  articles : List ArticleContent
  timestamp : ℤ
  logs : List String
  deriving DecidableEq, Repr

/-- The cache state: the files on disk keyed by cache key, plus the
`hits`/`misses`/`items` counters of `self.stats`. -/
structure CacheState where
  files : List (String × CacheFile)
  hits : ℕ
  misses : ℕ
  items : ℕ
  deriving DecidableEq, Repr

/-- Association lookup for the cache directory. -/
def lookupFile (files : List (String × CacheFile)) (key : String) : Option CacheFile :=
  (files.find? fun kv => kv.1 == key).map Prod.snd

/-- `ArticleCache.get` (cache.py lines 87-123).  `now` is the wall clock
(`datetime.now()`); an entry is expired when `now - timestamp` exceeds
24 hours = 86400 seconds.  Returns the payload (`none` on a miss) and the
updated stats; the files on disk are never modified by `get`. -/
def cacheGet (st : CacheState) (query language : String) (now : ℤ) :
    Option (List ArticleContent) × CacheState :=
  let key := cacheKey query language
  match lookupFile st.files key with
  | some file =>
    if now - file.timestamp > 86400 then
      (none, { st with misses := st.misses + 1 })
    else
      (some file.articles, { st with hits := st.hits + 1 })
  | none => (none, { st with misses := st.misses + 1 })

/-- Write-or-overwrite a cache file under a key: file names in the cache
directory are unique, so writing replaces any previous file of the same name. -/
def upsertFile : List (String × CacheFile) → String → CacheFile → List (String × CacheFile)
  | [], key, file => [(key, file)]
  | kv :: rest, key, file =>
    if kv.1 == key then (key, file) :: rest else kv :: upsertFile rest key file

/-- `ArticleCache.set` (cache.py lines 157-196): serialize the payload and
write `{query, language, articles, timestamp, logs}` under the cache key;
bump the `items` counter.  (The metadata index bookkeeping is not modelled;
no claim mentions it.) -/
def cacheSet (st : CacheState) (query language : String)
    (articles : List ArticleContent) (logs : List String) (now : ℤ) : CacheState :=
  { st with
    files := upsertFile st.files (cacheKey query language)
      { query := query, language := language, articles := articles,
        timestamp := now, logs := logs }
    items := st.items + 1 }

/-- The observable behaviour of `ArticleCache.get` on a miss: `None` is
returned and `self.stats["misses"]` is incremented. -/
def missResult (st : CacheState) : Option (List ArticleContent) × CacheState :=
  (none, { st with misses := st.misses + 1 })

/-- Remove the entry stored under the key for `(query, language)`; used to
compare an expired entry with an absent one. -/
def eraseEntry (st : CacheState) (query language : String) : CacheState :=
  { st with files := st.files.filter fun kv => ¬ (kv.1 == cacheKey query language) }

theorem lookupFile_eraseEntry (st : CacheState) (query language : String) :
    lookupFile (eraseEntry st query language).files (cacheKey query language) = none := by
  simp only [eraseEntry, lookupFile]
  rw [List.find?_eq_none.mpr]
  · rfl
  · intro kv hkv
    simp only [List.mem_filter] at hkv
    simpa using hkv.2

theorem lookupFile_upsertFile (files : List (String × CacheFile)) (key : String)
    (file : CacheFile) : lookupFile (upsertFile files key file) key = some file := by
  induction files with
  | nil => simp [upsertFile, lookupFile, List.find?]
  | cons kv rest ih =>
    by_cases h : kv.1 = key
    · simp [upsertFile, lookupFile, List.find?, h]
    · simp only [upsertFile, beq_iff_eq, h, if_false]
      have hih := ih
      simp only [lookupFile] at hih ⊢
      rw [List.find?_cons_of_neg _ (by simpa using h)]
      exact hih

/-- **C3.** For every cache entry whose stored timestamp is more than 24 hours
older than the current wall clock, `ArticleCache.get(query, language)` behaves
identically to a miss: it returns `None` and increments the miss counter,
exactly as when no entry exists for that key; the files on disk are untouched,
so expiry depends only on wall-clock age, never on access. -/
theorem claim_C3_expired_entry_is_miss (st : CacheState) (query language : String)
    (now : ℤ) (file : CacheFile)
    (hfound : lookupFile st.files (cacheKey query language) = some file)
    (hexpired : now - file.timestamp > 86400) :
    cacheGet st query language now = missResult st ∧
    cacheGet (eraseEntry st query language) query language now =
      missResult (eraseEntry st query language) ∧
    (cacheGet st query language now).2.files = st.files := by
  refine ⟨?_, ?_, ?_⟩
  · simp [cacheGet, hfound, hexpired, missResult]
  · simp [cacheGet, lookupFile_eraseEntry, missResult]
  · simp [cacheGet, hfound, hexpired]

/-- A concrete cache file, 86401 seconds old at the witness's clock. -/
def sampleFile : CacheFile := ⟨"news", "en", [], 0, []⟩

/-- A concrete cache state holding only `sampleFile`. -/
def sampleState : CacheState := ⟨[(cacheKey "news" "en", sampleFile)], 0, 0, 1⟩

theorem claim_C3_expired_entry_is_miss_witness :
    lookupFile sampleState.files (cacheKey "news" "en") = some sampleFile ∧
    ((86401 : ℤ) - sampleFile.timestamp > 86400) ∧
    cacheGet sampleState "news" "en" 86401 = missResult sampleState :=
  ⟨by decide, by decide,
    (claim_C3_expired_entry_is_miss sampleState "news" "en" 86401 sampleFile
      (by decide) (by decide)).1⟩

/-- **C9 counterexample.** The claim says queries that differ only in the
amount of internal whitespace address the same cache entry.  They do not:
`_get_cache_key` only lowercases, trims, and replaces each space by one
underscore — internal whitespace is preserved one character for one.  Storing
under `"a b"` and reading under `"a  b"` misses. -/
theorem claim_C9_counterexample :
    cacheKey "a b" "en" ≠ cacheKey "a  b" "en" ∧
    (cacheGet (cacheSet ⟨[], 0, 0, 0⟩ "a b" "en" [] [] 0) "a  b" "en" 0).1 = none := by
  constructor
  · decide
  · decide

/-- **C9 (amended).** The cache key is built from the query lowercased and
trimmed, with each space replaced by one underscore, so `get` and `set` address
the same entry for queries differing only in letter case or leading/trailing
whitespace; internal whitespace is preserved one-for-one, so queries differing
in the amount of internal whitespace address different entries. -/
theorem claim_C9_cache_key_normalization :
    (∀ q₁ q₂ l, pyStrip (pyLower q₁) = pyStrip (pyLower q₂) →
      cacheKey q₁ l = cacheKey q₂ l) ∧
    (∀ (st : CacheState) q₁ q₂ l arts logs (t now : ℤ),
      pyStrip (pyLower q₁) = pyStrip (pyLower q₂) → now - t ≤ 86400 →
      (cacheGet (cacheSet st q₁ l arts logs t) q₂ l now).1 = some arts) ∧
    cacheKey "a b" "en" ≠ cacheKey "a  b" "en" := by
  refine ⟨?_, ?_, by decide⟩
  · intro q₁ q₂ l h
    simp [cacheKey, h]
  · intro st q₁ q₂ l arts logs t now h hage
    have hkey : cacheKey q₁ l = cacheKey q₂ l := by simp [cacheKey, h]
    simp only [cacheGet, cacheSet, hkey, lookupFile_upsertFile]
    rw [if_neg (by omega)]

theorem claim_C9_cache_key_normalization_witness :
    pyStrip (pyLower "A b ") = pyStrip (pyLower "a b") ∧
    cacheKey "A b " "en" = cacheKey "a b" "en" ∧
    ((0 : ℤ) - 0 ≤ 86400) ∧
    (cacheGet (cacheSet ⟨[], 0, 0, 0⟩ "A b " "en" [] [] 0) "a b" "en" 0).1 = some [] :=
  ⟨by decide,
    claim_C9_cache_key_normalization.1 "A b " "a b" "en" (by decide),
    by decide,
    claim_C9_cache_key_normalization.2.1 ⟨[], 0, 0, 0⟩ "A b " "a b" "en" [] [] 0 0
      (by decide) (by decide)⟩

/-! ## Extraction retry policy (`agent.py` lines 374-375)

`extract_content` is decorated with
`@retry(stop=stop_after_attempt(3), wait=wait_exponential(multiplier=1, min=2, max=10),
        retry=retry_if_exception_type((requests.RequestException, ConnectionError)))`.
The decorated body performs network I/O; one attempt of it is modelled by a
function `attempt : ℕ → Except FetchError ArticleContent` giving the outcome
of the n-th attempt (1-based), where a `FetchError` records whether the raised
exception is one of the transient network/connection classes named in
`retry_if_exception_type`. -/

/-- An exception raised by one fetch/parse attempt.  `transient` is `true`
exactly for `requests.RequestException` / `ConnectionError`. -/
structure FetchError where
  transient : Bool
  message : String
  deriving DecidableEq, Repr

/-- tenacity's `wait_exponential(multiplier, min, max)` evaluated after the
n-th failed attempt (1-based): `multiplier * exp_base ** attempt_number`
clamped into `[min, max]` (`max(max(0, min), min(result, max))`), with
`exp_base = 2`. -/
def waitExponential (multiplier lo hi : ℚ) (attemptNumber : ℕ) : ℚ :=
  max (max 0 lo) (min (multiplier * 2 ^ attemptNumber) hi)

/-- The outcome of running a tenacity-decorated call: how many attempts were
made, the sleeps performed between attempts, and the final result. -/
structure RetryOutcome (α : Type) where
  attempts : ℕ
  waits : List ℚ
  result : Except FetchError α
  deriving Repr

/-- tenacity's retry loop with `stop=stop_after_attempt(maxAttempts)` and
`retry=retry_if_exception_type(...)` (encoded in `FetchError.transient`):
run the current attempt; on success stop; on failure re-raise immediately if
the exception is not retryable, stop (re-raising) once `maxAttempts` attempts
were made, and otherwise sleep `waitFn attemptNumber` and try again.  `fuel`
bounds the recursion and is instantiated with `maxAttempts`. -/
def tenacityLoop (maxAttempts : ℕ) (waitFn : ℕ → ℚ)
    (attempt : ℕ → Except FetchError α) : ℕ → ℕ → RetryOutcome α
  | fuel, n =>
    match attempt n with
    | .ok a => ⟨n, [], .ok a⟩
    | .error e =>
      match fuel with
      | 0 => ⟨n, [], .error e⟩
      | fuel' + 1 =>
        if e.transient ∧ n < maxAttempts then
          let rest := tenacityLoop maxAttempts waitFn attempt fuel' (n + 1)
          ⟨rest.attempts, waitFn n :: rest.waits, rest.result⟩
        else ⟨n, [], .error e⟩

/-- `extract_content`'s retry wrapper: up to 3 attempts,
`wait_exponential(multiplier=1, min=2, max=10)`, retrying only transient
network/connection errors. -/
def extractWithRetry (attempt : ℕ → Except FetchError ArticleContent) :
    RetryOutcome ArticleContent :=
  tenacityLoop 3 (waitExponential 1 2 10) attempt 3 1

/-- **C5.** Against a URL whose fetch always raises a transient
network/connection error, `extract_content` raises only after exactly 3
attempts, sleeping by the exponential-backoff schedule with base 2 seconds and
cap 10 seconds (`min(2^n, 10)` clamped below by 2, so 2s then 4s here); a
non-transient exception propagates immediately after a single attempt. -/
theorem claim_C5_retry_policy (attempt : ℕ → Except FetchError ArticleContent)
    (e : FetchError) :
    ((∀ n, attempt n = .error e) → e.transient = true →
      extractWithRetry attempt = ⟨3, [2, 4], .error e⟩) ∧
    (∀ k, waitExponential 1 2 10 k = max 2 (min (2 ^ k) 10)) ∧
    (attempt 1 = .error e → e.transient = false →
      extractWithRetry attempt = ⟨1, [], .error e⟩) := by
  refine ⟨?_, ?_, ?_⟩
  · intro hfail htrans
    simp [extractWithRetry, tenacityLoop, hfail, htrans, waitExponential]
    norm_num
  · intro k
    simp [waitExponential]
  · intro hfail htrans
    simp [extractWithRetry, tenacityLoop, hfail, htrans]

/-- A behaviour whose every attempt raises a transient error, and one whose
first attempt raises a non-transient error. -/
def alwaysTransient : ℕ → Except FetchError ArticleContent :=
  fun _ => .error ⟨true, "connection reset"⟩

theorem claim_C5_retry_policy_witness :
    (∀ n, alwaysTransient n = .error ⟨true, "connection reset"⟩) ∧
    (⟨true, "connection reset"⟩ : FetchError).transient = true ∧
    extractWithRetry alwaysTransient = ⟨3, [2, 4], .error ⟨true, "connection reset"⟩⟩ :=
  ⟨fun _ => rfl, rfl,
    (claim_C5_retry_policy alwaysTransient ⟨true, "connection reset"⟩).1
      (fun _ => rfl) rfl⟩

/-! ## Discovery and relevance scoring (`agent.py` `search_web`, lines 138-372) -/

/-- One parsed entry of an RSS feed, as read by `search_web`:
`entry.get('title','')`, `entry.get('description','') or entry.get('summary','')`,
the concatenated `entry.content[*].value`, and `entry.get('link','')`. -/
structure FeedEntry where
  title : String
  description : String
  content : String
  link : String
  deriving DecidableEq, Repr

/-- Python `str.split()` with no argument: split on whitespace runs, dropping
empty tokens. -/
def pySplitWsAux : List Char → List Char → List String
  | [], acc => if acc = [] then [] else [⟨acc.reverse⟩]
  | c :: cs, acc =>
    if c.isWhitespace then
      if acc = [] then pySplitWsAux cs [] else ⟨acc.reverse⟩ :: pySplitWsAux cs []
    else pySplitWsAux cs (c :: acc)

def pySplitWs (s : String) : List String := pySplitWsAux s.data []

/-- Contiguous-sublist test: does `needle` occur inside the list? -/
def containsSub (needle : List Char) : List Char → Bool
  | [] => needle.isEmpty
  | c :: rest => needle.isPrefixOf (c :: rest) || containsSub needle rest

/-- Python `needle in haystack` on strings: substring containment. -/
def pyContains (haystack needle : String) : Bool :=
  containsSub needle.data haystack.data

/-- `query_terms = [term.strip() for term in query.split() if term.strip()]`
(agent.py line 210). -/
def queryTerms (query : String) : List String :=
  ((pySplitWs query).map pyStrip).filter (· ≠ "")

/-- Number of query terms found (case-insensitively, as substrings) in the
entry title. -/
def titleTermCount (query : String) (e : FeedEntry) : ℕ :=
  (queryTerms query).countP fun t => pyContains (pyLower e.title) (pyLower t)

/-- Number of query terms found in the entry description or content. -/
def bodyTermCount (query : String) (e : FeedEntry) : ℕ :=
  (queryTerms query).countP fun t =>
    pyContains (pyLower e.description) (pyLower t) ||
    pyContains (pyLower e.content) (pyLower t)

/-- The two scoring loops of agent.py lines 213-221: `match_score += 2` per
term found in the title, `match_score += 1` per term found in
description/content. -/
def matchScore (query : String) (e : FeedEntry) : ℕ :=
  ((queryTerms query).foldl
    (fun acc t => if pyContains (pyLower e.title) (pyLower t) then acc + 2 else acc) 0) +
  ((queryTerms query).foldl
    (fun acc t =>
      if pyContains (pyLower e.description) (pyLower t) ||
         pyContains (pyLower e.content) (pyLower t) then acc + 1 else acc) 0)

/-- `max_score = len(query_terms) * 2` (agent.py line 211). -/
def maxScore (query : String) : ℕ := (queryTerms query).length * 2

/-- `relevance = (match_score / max_score) if max_score > 0 else 0`
(agent.py line 224). -/
def relevanceOf (query : String) (e : FeedEntry) : ℚ :=
  if maxScore query > 0 then (matchScore query e : ℚ) / (maxScore query : ℚ) else 0

/-- A `SearchResult` (pydantic model, agent.py lines 38-43).  The
`[Relevance: x.xx] ` prefix that the source embeds into the snippet string and
later re-parses with a regex is modelled by the `marked` field (`none` when no
prefix was written); `relevance` is the pydantic field, defaulting to 0. -/
structure SearchResult where
  title : String
  url : String
  snippet : String
  marked : Option ℚ := none
  relevance : ℚ := 0
  deriving DecidableEq, Repr

/-- `f"{relevance:.2f}"` followed by `float(...)` of the regex match: the
score is rounded to two decimal places.  (Python formats the underlying
binary float with round-half-to-even; ties are not exercised by any claim.) -/
def round2 (q : ℚ) : ℚ := (round (q * 100) : ℤ) / 100

/-- The `SearchResult` appended for a kept RSS entry (agent.py lines 230-239).
The snippet is the cleaned description truncated to 200 characters plus
`"..."`; the HTML-tag stripping done by BeautifulSoup's `get_text` is not
modelled (no claim depends on snippet text). -/
def mkRssResult (e : FeedEntry) (rel : ℚ) : SearchResult :=
  { title := e.title, url := e.link,
    snippet := ⟨e.description.data.take 200⟩ ++ "...",
    marked := some (round2 rel), relevance := 0 }

/-- The RSS phase of `search_web` (agent.py lines 188-241): for each feed,
the first 20 entries are scored; an entry is kept when
`fetch_all or relevance > min_relevance` and its link is non-empty.
Feeds whose parse raised are already absent from `feeds` (the per-feed
`except` only logs and skips). -/
def rssResults (query : String) (minRel : ℚ) (fetchAll : Bool)
    (feeds : List (List FeedEntry)) : List SearchResult :=
  feeds.flatMap fun feed =>
    (feed.take 20).filterMap fun e =>
      if (fetchAll || decide (relevanceOf query e > minRel)) && e.link != "" then
        some (mkRssResult e (relevanceOf query e))
      else none

/-- `tech_related = any(term in query.lower() for term in [...])`
(agent.py line 244). -/
def techRelated (query : String) : Bool :=
  ["기술", "테크", "tech", "technology", "트렌드", "trends", "it", "ai", "인공지능"].any
    fun t => pyContains (pyLower query) t

/-- One item returned by the Google Custom Search API. -/
structure GoogleItem where
  title : String
  link : String
  snippet : String
  deriving DecidableEq, Repr

/-- Google results all carry the fixed `[Relevance: 0.75]` marker
(agent.py lines 268-274). -/
def googleResults (items : List GoogleItem) : List SearchResult :=
  items.map fun it =>
    { title := it.title, url := it.link, snippet := it.snippet,
      marked := some (3 / 4), relevance := 0 }

/-- The hard-coded default sites used when no results were found
(agent.py lines 279-297); their snippets carry no relevance marker. -/
def defaultResults (language query : String) : List SearchResult :=
  let sites := if language = "ko" then
      [("https://www.chosun.com", "조선일보"), ("https://www.hani.co.kr", "한겨레")]
    else
      [("https://www.bbc.com/news/world", "BBC World News"),
       ("https://www.nytimes.com/section/world", "New York Times World News")]
  sites.map fun su =>
    { title := su.2 ++ ": " ++ query, url := su.1,
      snippet := "Find articles about " ++ query ++ " on " ++ su.2,
      marked := none, relevance := 0 }

/-- The deduplication loop of agent.py lines 299-305: keep the first result
for each URL. -/
def dedupByUrl : List SearchResult → List String → List SearchResult
  | [], _ => []
  | r :: rs, seen =>
    if r.url ∈ seen then dedupByUrl rs seen
    else r :: dedupByUrl rs (r.url :: seen)

/-- The re-parsing loop of agent.py lines 307-314: move the relevance encoded
in the snippet marker into the `relevance` field (0.0 when no marker matches)
and strip the marker from the snippet. -/
def parseMarked (r : SearchResult) : SearchResult :=
  { r with relevance := r.marked.getD 0, marked := none }

/-- The LLM re-scoring loop of agent.py lines 354-360:
`result.relevance = id_to_score.get(i, result.relevance)` over the enumerated
results. -/
def applyLlmScores (sc : List (ℕ × ℚ)) : List SearchResult → ℕ → List SearchResult
  | [], _ => []
  | r :: rs, i =>
    { r with relevance := ((sc.find? fun p => p.1 == i).map Prod.snd).getD r.relevance } ::
      applyLlmScores sc rs (i + 1)

/-- Descending order on the `relevance` field: the sort key of
`unique_results.sort(key=..., reverse=True)`. -/
def relDesc (a b : SearchResult) : Prop := b.relevance ≤ a.relevance

instance : DecidableRel relDesc :=
  fun a b => inferInstanceAs (Decidable (b.relevance ≤ a.relevance))

instance : IsTotal SearchResult relDesc := ⟨fun a b => le_total b.relevance a.relevance⟩

instance : IsTrans SearchResult relDesc := ⟨fun _ _ _ h h' => le_trans h' h⟩

/-- The combined result list of `search_web` before deduplication
(agent.py lines 185-297): RSS results, then — when fewer than 5 results were
found or the query is tech-related, and both Google API keys are configured —
the Google results, then the hard-coded defaults when still empty. -/
def combinedResults (query language : String) (minRel : ℚ) (fetchAll : Bool)
    (feeds : List (List FeedEntry)) (googleConfigured : Bool)
    (gitems : List GoogleItem) : List SearchResult :=
  let results := rssResults query minRel fetchAll feeds
  let results := results ++
    (if (results.length < 5 || techRelated query) && googleConfigured then
      googleResults gitems else [])
  if results = [] then defaultResults language query else results

/-- `unique_results` after the relevance re-parsing loop
(agent.py lines 299-314). -/
def uniqueResults (query language : String) (minRel : ℚ) (fetchAll : Bool)
    (feeds : List (List FeedEntry)) (googleConfigured : Bool)
    (gitems : List GoogleItem) : List SearchResult :=
  (dedupByUrl (combinedResults query language minRel fetchAll feeds
    googleConfigured gitems) []).map parseMarked

/-- `search_web` (agent.py lines 138-372).  External observations are passed
in: `feeds` holds the successfully parsed feeds, `googleConfigured` both API
environment keys, `gitems` the Google response, and `llmScores` the parsed
`[{id, relevance}]` array of the LLM re-scoring call (`none` when the key is
unset, at most one unique result exists, the call raised, or its JSON failed
to parse — all of which keep the keyword scores).  Output: sorted by
descending relevance, top 10. -/
def searchWeb (query language : String) (minRel : ℚ) (fetchAll : Bool)
    (feeds : List (List FeedEntry)) (googleConfigured : Bool)
    (gitems : List GoogleItem) (llmScores : Option (List (ℕ × ℚ))) :
    List SearchResult :=
  let uniq := uniqueResults query language minRel fetchAll feeds googleConfigured gitems
  let uniq := match llmScores with
    | some sc => if uniq.length > 1 then applyLlmScores sc uniq 0 else uniq
    | none => uniq
  (uniq.insertionSort relDesc).take 10

theorem foldl_count_add (p : α → Bool) (k : ℕ) :
    ∀ (l : List α) (n : ℕ),
      l.foldl (fun acc t => if p t then acc + k else acc) n = n + k * l.countP p
  | [], n => by simp
  | t :: l, n => by
    by_cases h : p t
    · simp [List.foldl_cons, h, foldl_count_add p k l, List.countP_cons, Nat.mul_add]
      ring
    · simp [List.foldl_cons, h, foldl_count_add p k l, List.countP_cons]

/-- The two accumulation loops compute twice the title hits plus the body
hits. -/
theorem matchScore_eq (query : String) (e : FeedEntry) :
    matchScore query e = 2 * titleTermCount query e + bodyTermCount query e := by
  unfold matchScore titleTermCount bodyTermCount
  rw [foldl_count_add, foldl_count_add]
  omega

theorem mem_dedupByUrl {r : SearchResult} :
    ∀ {l : List SearchResult} {seen : List String},
      r ∈ dedupByUrl l seen → r ∈ l ∧ r.url ∉ seen
  | [], _, h => by simp [dedupByUrl] at h
  | x :: l, seen, h => by
    by_cases hx : x.url ∈ seen
    · have := @mem_dedupByUrl r l seen (by simpa [dedupByUrl, hx] using h)
      exact ⟨List.mem_cons_of_mem _ this.1, this.2⟩
    · simp only [dedupByUrl, if_neg hx, List.mem_cons] at h
      rcases h with rfl | h
      · exact ⟨List.mem_cons_self _ _, hx⟩
      · have := @mem_dedupByUrl r l (x.url :: seen) h
        refine ⟨List.mem_cons_of_mem _ this.1, fun hs => this.2 (List.mem_cons_of_mem _ hs)⟩

theorem pairwise_dedupByUrl :
    ∀ (l : List SearchResult) (seen : List String),
      (dedupByUrl l seen).Pairwise fun a b => a.url ≠ b.url
  | [], _ => by simp [dedupByUrl]
  | x :: l, seen => by
    by_cases hx : x.url ∈ seen
    · simpa [dedupByUrl, hx] using pairwise_dedupByUrl l seen
    · simp only [dedupByUrl, if_neg hx]
      refine List.Pairwise.cons ?_ (pairwise_dedupByUrl l (x.url :: seen))
      intro b hb hurl
      exact (mem_dedupByUrl hb).2 (by simp [← hurl])

@[simp] theorem parseMarked_url (r : SearchResult) : (parseMarked r).url = r.url := rfl

theorem map_url_applyLlmScores (sc : List (ℕ × ℚ)) :
    ∀ (l : List SearchResult) (i : ℕ),
      (applyLlmScores sc l i).map (·.url) = l.map (·.url)
  | [], _ => rfl
  | r :: l, i => by
    simp [applyLlmScores, map_url_applyLlmScores sc l (i + 1)]

theorem pairwise_ne_url_iff (l : List SearchResult) :
    (l.Pairwise fun a b => a.url ≠ b.url) ↔ (l.map (·.url)).Pairwise Ne :=
  (List.pairwise_map).symm

theorem pairwise_uniqueResults (query language : String) (minRel : ℚ)
    (fetchAll : Bool) (feeds : List (List FeedEntry)) (googleConfigured : Bool)
    (gitems : List GoogleItem) :
    (uniqueResults query language minRel fetchAll feeds googleConfigured
      gitems).Pairwise fun a b => a.url ≠ b.url := by
  unfold uniqueResults
  exact List.pairwise_map.mpr (pairwise_dedupByUrl _ [])

/-- **C4.** Discovery scoring and output shape: the keyword relevance of a
feed entry is `(2×(terms in title) + 1×(terms in body)) / (2×termCount)`;
without `fetch_all`, an RSS entry contributes a result only when that
relevance strictly exceeds `min_relevance`; and the returned list is
deduplicated by URL, sorted by descending relevance, and holds at most 10
results. -/
theorem claim_C4_discovery_scoring (query language : String) (minRel : ℚ)
    (fetchAll : Bool) (feeds : List (List FeedEntry)) (googleConfigured : Bool)
    (gitems : List GoogleItem) (llmScores : Option (List (ℕ × ℚ))) :
    (∀ e : FeedEntry, queryTerms query ≠ [] →
      relevanceOf query e =
        (2 * titleTermCount query e + bodyTermCount query e : ℚ) /
          (2 * (queryTerms query).length)) ∧
    (fetchAll = false → ∀ r ∈ rssResults query minRel fetchAll feeds,
      ∃ e ∈ feeds.flatMap (List.take 20),
        relevanceOf query e > minRel ∧ r = mkRssResult e (relevanceOf query e)) ∧
    (searchWeb query language minRel fetchAll feeds googleConfigured gitems
        llmScores).Pairwise (fun a b => a.url ≠ b.url) ∧
    List.Sorted relDesc
      (searchWeb query language minRel fetchAll feeds googleConfigured gitems
        llmScores) ∧
    (searchWeb query language minRel fetchAll feeds googleConfigured gitems
        llmScores).length ≤ 10 := by
  have hpair : ∀ (uniq : List SearchResult),
      (uniq.Pairwise fun a b => a.url ≠ b.url) →
      (((uniq.insertionSort relDesc).take 10).Pairwise fun a b => a.url ≠ b.url) := by
    intro uniq h
    apply List.Pairwise.sublist (List.take_sublist _ _)
    exact ((List.perm_insertionSort relDesc uniq).pairwise_iff
      (fun h' => Ne.symm h')).mpr h
  refine ⟨?_, ?_, ?_, ?_, ?_⟩
  · intro e hterms
    have hpos : 0 < (queryTerms query).length := List.length_pos.mpr hterms
    have hmax : maxScore query > 0 := by
      simp only [maxScore]; omega
    rw [relevanceOf, if_pos hmax, matchScore_eq, maxScore]
    push_cast
    ring_nf
  · rintro rfl r hr
    simp only [rssResults, List.mem_flatMap, List.mem_filterMap] at hr
    obtain ⟨feed, hfeed, e, he, hkeep⟩ := hr
    by_cases hcond : (false || decide (relevanceOf query e > minRel)) && e.link != ""
    · rw [if_pos hcond] at hkeep
      refine ⟨e, List.mem_flatMap.mpr ⟨feed, hfeed, he⟩, ?_,
        (Option.some_inj.mp hkeep).symm⟩
      have := ((Bool.and_eq_true _ _).mp hcond).1
      simpa using this
    · rw [if_neg hcond] at hkeep
      exact absurd hkeep (by simp)
  · show (searchWeb query language minRel fetchAll feeds googleConfigured gitems
        llmScores).Pairwise fun a b => a.url ≠ b.url
    unfold searchWeb
    match llmScores with
    | none => exact hpair _ (pairwise_uniqueResults _ _ _ _ _ _ _)
    | some sc =>
      simp only
      by_cases hlen : (uniqueResults query language minRel fetchAll feeds
          googleConfigured gitems).length > 1
      · rw [if_pos hlen]
        apply hpair
        rw [pairwise_ne_url_iff, map_url_applyLlmScores, ← pairwise_ne_url_iff]
        exact pairwise_uniqueResults _ _ _ _ _ _ _
      · rw [if_neg hlen]
        exact hpair _ (pairwise_uniqueResults _ _ _ _ _ _ _)
  · apply List.Pairwise.sublist (List.take_sublist _ _)
    exact List.sorted_insertionSort relDesc _
  · exact List.length_take_le _ _

/-- A relevant and an irrelevant sample feed entry for the C4 witness. -/
def sampleEntry1 : FeedEntry := ⟨"AI breakthrough", "", "", "https://example.com/1"⟩

def sampleEntry2 : FeedEntry := ⟨"Cooking at home", "", "", "https://example.com/2"⟩

theorem claim_C4_discovery_scoring_witness :
    queryTerms "ai" ≠ [] ∧
    relevanceOf "ai" sampleEntry1 =
      (2 * titleTermCount "ai" sampleEntry1 + bodyTermCount "ai" sampleEntry1 : ℚ) /
        (2 * (queryTerms "ai").length) ∧
    mkRssResult sampleEntry1 (relevanceOf "ai" sampleEntry1) ∈
      rssResults "ai" (1/4) false [[sampleEntry1, sampleEntry2]] ∧
    (∃ e ∈ [[sampleEntry1, sampleEntry2]].flatMap (List.take 20),
      relevanceOf "ai" e > 1/4 ∧
        mkRssResult sampleEntry1 (relevanceOf "ai" sampleEntry1) =
          mkRssResult e (relevanceOf "ai" e)) ∧
    (searchWeb "ai" "en" (1/4) false [[sampleEntry1, sampleEntry2]] false []
      none).length ≤ 10 :=
  ⟨by decide,
    (claim_C4_discovery_scoring "ai" "en" (1/4) false [[sampleEntry1, sampleEntry2]]
      false [] none).1 sampleEntry1 (by decide),
    by with_unfolding_all decide,
    (claim_C4_discovery_scoring "ai" "en" (1/4) false [[sampleEntry1, sampleEntry2]]
      false [] none).2.1 rfl _ (by with_unfolding_all decide),
    (claim_C4_discovery_scoring "ai" "en" (1/4) false [[sampleEntry1, sampleEntry2]]
      false [] none).2.2.2.2⟩

/-! ## Extraction: section construction (`agent.py` `extract_content`, lines 431-518) -/

/-- Python `s.startswith(pre)`. -/
def pyStartsWith (s pre : String) : Bool := pre.data.isPrefixOf s.data

/-- One element yielded by
`main_content.find_all(['h1','h2','h3','h4','h5','h6','p','img'])` after the
non-content elements were decomposed: a heading tag with its text, a paragraph
with its text, or an image with its `src`, `alt`, and — when its parent is a
`figure` holding a `figcaption` — that caption text. -/
inductive HtmlElem
  | htag (text : String)
  | ptag (text : String)
  | imgtag (src : String) (alt : String) (figcaption : Option String)
  deriving DecidableEq, Repr

/-- `urllib.parse.urljoin`, simplified to concatenation: no claim depends on
URL resolution, only on which sections are emitted and in which order. -/
def urljoin (base rel : String) : String := base ++ rel

/-- The body of the structured-extraction loop (agent.py lines 449-496): which
section, if any, one element contributes.  A heading is skipped when its
stripped text is empty or repeats the article title; a paragraph is skipped
when its stripped text is empty; an image is skipped without `src`, its URL is
absolutized, and its caption comes from the `figcaption` else the `alt` text. -/
def sectionFor (title base : String) : HtmlElem → Option (String × String × Option String)
  | .htag t =>
    let ht := pyStrip t
    if ht ≠ "" ∧ ht ≠ title then some ("heading", ht, none) else none
  | .ptag t =>
    let pt := pyStrip t
    if pt ≠ "" then some ("text", pt, none) else none
  | .imgtag src alt figcaption =>
    if src ≠ "" then
      let imgUrl := if pyStartsWith src "http://" || pyStartsWith src "https://" then src
        else urljoin base src
      let caption := match figcaption with
        | some f => pyStrip f
        | none => ""
      let caption := if caption = "" ∧ alt ≠ "" then alt else caption
      some ("image", imgUrl, some caption)
    else none

/-- The structured-extraction loop itself: `order` starts at 0 and is
incremented once per emitted section. -/
def structLoop (title base : String) : List HtmlElem → ℕ → List ContentSection
  | [], _ => []
  | e :: es, ord =>
    match sectionFor title base e with
    | some tcc => ⟨tcc.1, tcc.2.1, tcc.2.2, ord⟩ :: structLoop title base es (ord + 1)
    | none => structLoop title base es ord

/-- Python `text.split('\n\n')`: split on each occurrence of two consecutive
newlines, scanning left to right. -/
def splitBlankAux : List Char → List Char → List String
  | [], acc => [⟨acc.reverse⟩]
  | '\n' :: '\n' :: rest, acc => ⟨acc.reverse⟩ :: splitBlankAux rest []
  | c :: rest, acc => splitBlankAux rest (c :: acc)

def splitBlank (s : String) : List String := splitBlankAux s.data []

/-- The raw-text fallback (agent.py lines 499-508):
`paragraphs = [p for p in article.text.split('\n\n') if p.strip()]`, each
becoming a `text` section with `order = i`. -/
def blankSplitSections (text : String) : List ContentSection :=
  (((splitBlank text).filter fun p => pyStrip p ≠ "").enum).map fun ip =>
    ⟨"text", pyStrip ip.2, none, ip.1⟩

/-- The placeholder section of agent.py lines 511-518. -/
def placeholderSection : ContentSection :=
  ⟨"text", "The content could not be extracted from this webpage. It may be paywalled or use JavaScript to load content.", none, 0⟩

/-- The fallback chain of `extract_content` (agent.py lines 431-518):
structured parse; on emptiness the blank-line split of the raw text (when any
raw text exists — an absent `article.html` is modelled by an empty element
list); on emptiness the single placeholder section. -/
def extractSections (title base : String) (elems : List HtmlElem) (text : String) :
    List ContentSection :=
  let s := structLoop title base elems 0
  let s := if s = [] ∧ text ≠ "" then blankSplitSections text else s
  if s = [] then [placeholderSection] else s

/-! ## Synthesis (`agent.py` `ContentAgent.group_and_rewrite_articles`, lines 678-937)

The LLM call `self.llm.ainvoke(prompt)` is modelled by
`llmResponse : Option String`: `some resp` when the call returned `resp`,
`none` when it raised (the outer `except` of lines 934-937 then returns the
input articles unchanged).  The prompt construction (lines 697-752) only feeds
the LLM and is not otherwise observable, so it is not modelled.  The
`target_difficulty` parameter only selects a rubric inside that prompt. -/

/-- Remainder of `s` after the first occurrence of `sep` (`s.split(sep, 1)[1]`),
or `none` when `sep` does not occur (`sep` is never empty at call sites). -/
def afterFirst (sep : List Char) : List Char → Option (List Char)
  | [] => if sep.isEmpty then some [] else none
  | c :: rest =>
    if sep.isPrefixOf (c :: rest) then some ((c :: rest).drop sep.length)
    else afterFirst sep rest

/-- Portion of `s` before the first occurrence of `sep` (`s.split(sep, 1)[0]`),
or `none` when `sep` does not occur. -/
def beforeFirst (sep : List Char) : List Char → Option (List Char)
  | [] => if sep.isEmpty then some [] else none
  | c :: rest =>
    if sep.isPrefixOf (c :: rest) then some []
    else (beforeFirst sep rest).map (c :: ·)

/-- Python `s.split("\n")`. -/
def splitNlAux : List Char → List Char → List String
  | [], acc => [⟨acc.reverse⟩]
  | '\n' :: rest, acc => ⟨acc.reverse⟩ :: splitNlAux rest []
  | c :: rest, acc => splitNlAux rest (c :: acc)

def splitNl (s : String) : List String := splitNlAux s.data []

/-- `', '.join(…)`. -/
def joinComma : List String → String
  | [] => ""
  | [s] => s
  | s :: rest => s ++ ", " ++ joinComma rest

/-- The topic set accumulated by `topics.update(article.topics)`
(lines 699-714): set semantics, realized as an insertion-ordered
duplicate-free list (Python's `list(topics)` order is unspecified; only
membership is observable through the claims). -/
def insertNewTopics (acc : List String) (ts : List String) : List String :=
  ts.foldl (fun ac t => if t ∈ ac then ac else ac ++ [t]) acc

def unionTopics (articles : List ArticleContent) : List String :=
  articles.foldl (fun acc a => insertNewTopics acc a.topics) []

/-- Title extraction (lines 760-769): the stripped first line after `TITLE:`
when present and non-empty, else `f"Article about {', '.join(list(topics)[:3])}"`. -/
def parseTitle (resp : String) (topicsU : List String) : String :=
  let fallbackTitle := "Article about " ++ joinComma (topicsU.take 3)
  match afterFirst ("TITLE:".data) resp.data with
  | some rest =>
    let cand := pyStrip ⟨(pyStrip ⟨rest⟩).data.takeWhile (· ≠ '\n')⟩
    if cand ≠ "" then cand else fallbackTitle
  | none => fallbackTitle

/-- The `CONTENT:` region (lines 773-781): everything after `CONTENT:`, cut
(and then stripped) at `KEY_VOCABULARY:` when that marker follows, `none` when
absent or empty. -/
def contentRegion (resp : String) : Option String :=
  match afterFirst ("CONTENT:".data) resp.data with
  | none => none
  | some rest =>
    let cand : String :=
      match beforeFirst ("KEY_VOCABULARY:".data) rest with
      | some pre => pyStrip ⟨pre⟩
      | none => ⟨rest⟩
    if cand ≠ "" then some cand else none

/-- `line.lstrip("#").strip()`. -/
def stripHashes (line : String) : String := pyStrip ⟨line.data.dropWhile (· = '#')⟩

/-- Flushing the accumulated section (lines 793-813 and 824-842): when text
has accumulated, emit the pending heading (when one is pending and non-empty)
at `ord` followed by the stripped text. -/
def flushSections (cs cc : String) (ord : ℕ) : List ContentSection :=
  if cc ≠ "" then
    if cs ≠ "" then
      [⟨"heading", cs, none, ord⟩, ⟨"text", pyStrip cc, none, ord + 1⟩]
    else
      [⟨"text", pyStrip cc, none, ord⟩]
  else []

/-- The marker-based content parsing loop (lines 785-842).  State:
`cs = current_section` (empty models Python `None` — only its truthiness and
text are ever used), `cc = current_content`, `ord = order`,
`prev = prev_line` (empty until first assigned; the underline-heading branch
can only fire after `cc` is non-empty, which implies `prev` was assigned). -/
def parseLoop : List String → String → String → ℕ → String → List ContentSection
  | [], cs, cc, ord, _ => flushSections cs cc ord
  | l :: ls, cs, cc, ord, prev =>
    let line := pyStrip l
    if pyStartsWith line "#" || (line != "" && line.data.all (· == '=') && cc != "") then
      let emitted := flushSections cs cc ord
      let newCs := if pyStartsWith line "#" then stripHashes line else pyStrip prev
      emitted ++ parseLoop ls newCs "" (ord + emitted.length) prev
    else
      parseLoop ls cs (cc ++ line ++ "\n") ord line

/-- Content-section extraction from the LLM response (lines 772-851): parse
the `CONTENT:` region line by line; when no region was found, the single
apology section of lines 845-851. -/
def parseContentSections (resp : String) : List ContentSection :=
  match contentRegion resp with
  | some content => parseLoop (splitNl content) "" "" 0 ""
  | none =>
    [⟨"text", "Content could not be properly extracted from the LLM response.", none, 0⟩]

/-- The `KEY_VOCABULARY:` parsing loop (lines 854-869): a `{word, definition}`
pair per stripped line that starts with `-` and holds a colon.  The source
computes this list and never attaches it to the returned article. -/
def parseVocabulary (resp : String) : List (String × String) :=
  match afterFirst ("KEY_VOCABULARY:".data) resp.data with
  | none => []
  | some rest =>
    (splitNl (pyStrip ⟨rest⟩)).filterMap fun l =>
      let line := pyStrip l
      if pyStartsWith line "-" && (afterFirst [':'] line.data).isSome then
        match beforeFirst [':'] (line.data.drop 1), afterFirst [':'] (line.data.drop 1) with
        | some w, some d => some (pyStrip ⟨w⟩, pyStrip ⟨d⟩)
        | _, _ => none
      else none

/-- The text sections re-emitted by the inner-`except` fallback
(lines 914-923). -/
def fallbackTextSections : List ContentSection → ℕ → List ContentSection
  | [], _ => []
  | s :: ss, ord =>
    if s.type = "text" then
      ⟨"text", s.content, none, ord⟩ :: fallbackTextSections ss (ord + 1)
    else fallbackTextSections ss ord

/-- The per-source-article part of the inner-`except` fallback
(lines 903-923): a `Source {i+1}: {title}` heading followed by the article's
text sections. -/
def fallbackArticlesLoop : List ArticleContent → ℕ → ℕ → List ContentSection
  | [], _, _ => []
  | a :: as, i, ord =>
    let texts := fallbackTextSections a.content (ord + 1)
    ⟨"heading", "Source " ++ toString (i + 1) ++ ": " ++ a.title, none, ord⟩ ::
      (texts ++ fallbackArticlesLoop as (i + 1) (ord + 1 + texts.length))

/-- The full section list of the inner-`except` fallback article
(lines 889-923). -/
def fallbackSections (articles : List ArticleContent) : List ContentSection :=
  ⟨"heading", "Synthesized Article", none, 0⟩ ::
  ⟨"text", "This article combines information from multiple sources on the topic.", none, 1⟩ ::
  fallbackArticlesLoop articles 0 2

/-- The inner-`except` fallback article (lines 925-933); the parsing code it
guards is total in this embedding, so `groupAndRewriteArticles` never produces
it, but its structure is still verified for C6. -/
def fallbackArticle (articles : List ArticleContent) (language : String) : ArticleContent :=
  { title := "Synthesized Article on " ++ joinComma ((unionTopics articles).take 3),
    url := "", source := "AI-generated from multiple sources", language := language,
    content := fallbackSections articles, topics := unionTopics articles }

/-- `ContentAgent.group_and_rewrite_articles` (lines 678-937): empty input
returns `[]`; an LLM exception returns the input articles unchanged (outer
`except`, lines 934-937); otherwise exactly one `ArticleContent` built from
the parsed response.  The parsed vocabulary (`parseVocabulary`) is computed by
the source and dropped, and no source-reference field exists on the returned
object (the `GroupedArticleContent` model of lines 65-74 is never
constructed). -/
def groupAndRewriteArticles (articles : List ArticleContent) (language : String)
    (targetDifficulty : String) (llmResponse : Option String) : List ArticleContent :=
  if articles = [] then []
  else
    match llmResponse with
    | none => articles
    | some resp =>
      [{ title := parseTitle resp (unionTopics articles), url := "",
         source := "AI-generated from multiple sources", language := language,
         content := parseContentSections resp, topics := unionTopics articles }]

/-! ## Section-order invariant (C6) -/

/-- The orders of `l` are consecutive starting at `n`. -/
def OrdersFrom (l : List ContentSection) (n : ℕ) : Prop :=
  l.map (·.order) = List.range' n l.length

theorem ordersFrom_nil (n : ℕ) : OrdersFrom [] n := rfl

theorem ordersFrom_cons {sec : ContentSection} {l : List ContentSection} {n : ℕ}
    (hsec : sec.order = n) (hl : OrdersFrom l (n + 1)) : OrdersFrom (sec :: l) n := by
  rw [OrdersFrom, List.map_cons, List.length_cons, List.range'_succ, hsec, hl]

theorem ordersFrom_append {l₁ l₂ : List ContentSection} {n : ℕ}
    (h₁ : OrdersFrom l₁ n) (h₂ : OrdersFrom l₂ (n + l₁.length)) :
    OrdersFrom (l₁ ++ l₂) n := by
  simp only [OrdersFrom, List.map_append, List.length_append]
  rw [h₁, h₂]
  have := List.range'_append n l₁.length l₂.length 1
  simpa [Nat.add_comm] using this

theorem ordersFrom_flushSections (cs cc : String) (ord : ℕ) :
    OrdersFrom (flushSections cs cc ord) ord := by
  unfold flushSections
  by_cases hcc : cc ≠ ""
  · by_cases hcs : cs ≠ "" <;>
      simp [hcc, hcs, OrdersFrom, List.range'_succ]
  · simp [hcc, ordersFrom_nil]

theorem ordersFrom_parseLoop :
    ∀ (ls : List String) (cs cc : String) (ord : ℕ) (prev : String),
      OrdersFrom (parseLoop ls cs cc ord prev) ord
  | [], cs, cc, ord, prev => ordersFrom_flushSections cs cc ord
  | l :: ls, cs, cc, ord, prev => by
    rw [parseLoop]
    by_cases hc : pyStartsWith (pyStrip l) "#" ||
        (pyStrip l != "" && (pyStrip l).data.all (· == '=') && cc != "")
    · simp only [hc, if_true]
      exact ordersFrom_append (ordersFrom_flushSections cs cc ord)
        (ordersFrom_parseLoop ls _ "" _ prev)
    · simp only [hc, if_false]
      exact ordersFrom_parseLoop ls cs _ ord _

theorem ordersFrom_structLoop (title base : String) :
    ∀ (elems : List HtmlElem) (ord : ℕ), OrdersFrom (structLoop title base elems ord) ord
  | [], _ => ordersFrom_nil _
  | e :: es, ord => by
    rw [structLoop]
    match h : sectionFor title base e with
    | some tcc =>
      exact ordersFrom_cons rfl (ordersFrom_structLoop title base es (ord + 1))
    | none =>
      exact ordersFrom_structLoop title base es ord

theorem ordersFrom_blankSplitSections (text : String) :
    OrdersFrom (blankSplitSections text) 0 := by
  unfold blankSplitSections OrdersFrom
  rw [List.map_map, List.length_map, ← List.range_eq_range']
  have : ((·.order) ∘ fun ip : ℕ × String => (⟨"text", pyStrip ip.2, none, ip.1⟩ : ContentSection)) =
      Prod.fst := rfl
  rw [this, List.enum_map_fst, List.enum_length]

theorem ordersFrom_extractSections (title base : String) (elems : List HtmlElem)
    (text : String) : OrdersFrom (extractSections title base elems text) 0 := by
  unfold extractSections
  by_cases h1 : structLoop title base elems 0 = [] ∧ text ≠ ""
  · simp only [h1, and_true, if_true, h1.2, ne_eq, not_false_iff]
    by_cases h2 : blankSplitSections text = []
    · simp [h1, h2, OrdersFrom, placeholderSection, List.range']
    · simpa [h1, h2] using ordersFrom_blankSplitSections text
  · simp only [h1, if_false]
    by_cases h2 : structLoop title base elems 0 = []
    · simp [h2, OrdersFrom, placeholderSection, List.range']
    · simpa [h2] using ordersFrom_structLoop title base elems 0

theorem ordersFrom_parseContentSections (resp : String) :
    OrdersFrom (parseContentSections resp) 0 := by
  unfold parseContentSections
  match contentRegion resp with
  | some content => exact ordersFrom_parseLoop (splitNl content) "" "" 0 ""
  | none => simp [OrdersFrom, List.range']

theorem ordersFrom_fallbackTextSections :
    ∀ (ss : List ContentSection) (ord : ℕ), OrdersFrom (fallbackTextSections ss ord) ord
  | [], _ => ordersFrom_nil _
  | s :: ss, ord => by
    rw [fallbackTextSections]
    by_cases h : s.type = "text"
    · simp only [h, if_true]
      exact ordersFrom_cons rfl (ordersFrom_fallbackTextSections ss (ord + 1))
    · simp only [h, if_false]
      exact ordersFrom_fallbackTextSections ss ord

theorem ordersFrom_fallbackArticlesLoop :
    ∀ (articles : List ArticleContent) (i ord : ℕ),
      OrdersFrom (fallbackArticlesLoop articles i ord) ord
  | [], _, _ => ordersFrom_nil _
  | a :: as, i, ord => by
    rw [fallbackArticlesLoop]
    refine ordersFrom_cons rfl (ordersFrom_append
      (ordersFrom_fallbackTextSections a.content (ord + 1)) ?_)
    exact ordersFrom_fallbackArticlesLoop as (i + 1) _

theorem ordersFrom_fallbackSections (articles : List ArticleContent) :
    OrdersFrom (fallbackSections articles) 0 :=
  ordersFrom_cons rfl (ordersFrom_cons rfl (ordersFrom_fallbackArticlesLoop articles 0 2))

theorem pairwise_lt_of_ordersFrom {l : List ContentSection} {n : ℕ}
    (h : OrdersFrom l n) : (l.map (·.order)).Pairwise (· < ·) := by
  rw [h]
  exact List.pairwise_lt_range' n l.length

theorem head_of_ordersFrom {l : List ContentSection} {n : ℕ}
    (h : OrdersFrom l n) (hne : l ≠ []) : (l.map (·.order)).head? = some n := by
  rw [h]
  cases l with
  | nil => exact absurd rfl hne
  | cons a l => rw [List.length_cons, List.range'_succ]; rfl

/-- **C6.** Every article produced by extraction — through the structured
parse, the blank-line text split, or the placeholder — and every article
produced by synthesis (parsed response or the inner fallback) has section
`order` values equal to `0, 1, 2, …`: they start at 0 and strictly increase. -/
theorem claim_C6_section_orders :
    (∀ (title base : String) (elems : List HtmlElem) (text : String),
      OrdersFrom (extractSections title base elems text) 0) ∧
    (∀ (articles : List ArticleContent) (language diff resp : String),
      articles ≠ [] →
      ∀ a ∈ groupAndRewriteArticles articles language diff (some resp),
        OrdersFrom a.content 0) ∧
    (∀ articles : List ArticleContent, OrdersFrom (fallbackSections articles) 0) ∧
    (∀ (l : List ContentSection) (n : ℕ), OrdersFrom l n →
      (l.map (·.order)).Pairwise (· < ·) ∧
      (l ≠ [] → (l.map (·.order)).head? = some n)) := by
  refine ⟨ordersFrom_extractSections, ?_, ordersFrom_fallbackSections, ?_⟩
  · intro articles language diff resp hne a ha
    rw [groupAndRewriteArticles, if_neg hne] at ha
    simp only [List.mem_singleton] at ha
    subst ha
    exact ordersFrom_parseContentSections resp
  · intro l n h
    exact ⟨pairwise_lt_of_ordersFrom h, head_of_ordersFrom h⟩

/-- A one-article input for the C6/C1 witnesses. -/
def sampleSourceArticle : ArticleContent :=
  { title := "Quantum computing advances", url := "https://example.com/q",
    source := "example.com", language := "en",
    content := [⟨"text", "Researchers report progress.", none, 0⟩],
    topics := ["quantum", "computing"] }

/-- A well-formed LLM synthesis response for the witnesses. -/
def sampleResponse : String :=
  "TITLE: Learning about quantum machines\nCONTENT:\n# Introduction\nQuantum machines are studied.\n# Conclusion\nMuch remains to learn.\nKEY_VOCABULARY:\n- quantum: smallest unit\n- machine: a device"

theorem claim_C6_section_orders_witness :
    ([sampleSourceArticle] ≠ []) ∧
    (groupAndRewriteArticles [sampleSourceArticle] "en" "intermediate"
        (some sampleResponse)).head?.isSome = true ∧
    (∀ a ∈ groupAndRewriteArticles [sampleSourceArticle] "en" "intermediate"
        (some sampleResponse), OrdersFrom a.content 0) :=
  ⟨by decide, by decide,
    claim_C6_section_orders.2.1 [sampleSourceArticle] "en" "intermediate"
      sampleResponse (by decide)⟩

/-! ## C1: synthesis output shape -/

theorem mem_insertNewTopics (x : String) :
    ∀ (ts acc : List String), x ∈ insertNewTopics acc ts ↔ x ∈ acc ∨ x ∈ ts
  | [], acc => by simp [insertNewTopics]
  | t :: ts, acc => by
    unfold insertNewTopics
    rw [List.foldl_cons]
    by_cases h : t ∈ acc
    · rw [if_pos h]
      have := mem_insertNewTopics x ts acc
      rw [insertNewTopics] at this
      rw [this]
      constructor
      · rintro (hx | hx)
        · exact Or.inl hx
        · exact Or.inr (List.mem_cons_of_mem _ hx)
      · rintro (hx | hx)
        · exact Or.inl hx
        · rcases List.mem_cons.mp hx with rfl | hx
          · exact Or.inl h
          · exact Or.inr hx
    · rw [if_neg h]
      have := mem_insertNewTopics x ts (acc ++ [t])
      rw [insertNewTopics] at this
      rw [this]
      simp only [List.mem_append, List.mem_singleton, List.mem_cons]
      tauto

theorem mem_unionTopics_aux (x : String) :
    ∀ (articles : List ArticleContent) (acc : List String),
      x ∈ articles.foldl (fun acc a => insertNewTopics acc a.topics) acc ↔
        x ∈ acc ∨ ∃ a ∈ articles, x ∈ a.topics
  | [], acc => by simp
  | a :: articles, acc => by
    rw [List.foldl_cons, mem_unionTopics_aux x articles, mem_insertNewTopics]
    simp only [List.mem_cons]
    constructor
    · rintro ((hx | hx) | ⟨b, hb, hx⟩)
      · exact Or.inl hx
      · exact Or.inr ⟨a, Or.inl rfl, hx⟩
      · exact Or.inr ⟨b, Or.inr hb, hx⟩
    · rintro (hx | ⟨b, rfl | hb, hx⟩)
      · exact Or.inl (Or.inl hx)
      · exact Or.inl (Or.inr hx)
      · exact Or.inr ⟨b, hb, hx⟩

theorem mem_unionTopics (x : String) (articles : List ArticleContent) :
    x ∈ unionTopics articles ↔ ∃ a ∈ articles, x ∈ a.topics := by
  rw [unionTopics, mem_unionTopics_aux]
  simp

/-- Two concrete distinct source articles for the C1 counterexample. -/
def sampleArticleA : ArticleContent :=
  { title := "A", url := "https://a.example", source := "a.example", language := "en",
    content := [⟨"text", "alpha", none, 0⟩], topics := ["economy"] }

def sampleArticleB : ArticleContent :=
  { title := "B", url := "https://b.example", source := "b.example", language := "en",
    content := [⟨"text", "beta", none, 0⟩], topics := ["science"] }

/-- **C1 counterexample.** The claim says synthesis returns exactly one
article for every non-empty input.  When the LLM call raises, the outer
`except` of `group_and_rewrite_articles` (agent.py lines 934-937) returns the
original input articles: two articles in, two articles out. -/
theorem claim_C1_counterexample :
    groupAndRewriteArticles [sampleArticleA, sampleArticleB] "en" "intermediate" none =
      [sampleArticleA, sampleArticleB] ∧
    (groupAndRewriteArticles [sampleArticleA, sampleArticleB] "en" "intermediate"
      none).length ≠ 1 := by
  constructor
  · decide
  · decide

/-- **C1 (amended).** For any non-empty article list: when the LLM call
returns a response, `group_and_rewrite_articles` returns exactly one article
whose `topics` are exactly the union of the input articles' topics; the
returned object is a plain `ArticleContent` carrying no source-reference or
key-vocabulary fields (the parsed vocabulary is discarded by the source).
When the LLM call raises, the input articles are returned unchanged. -/
theorem claim_C1_synthesis_output (articles : List ArticleContent)
    (language diff resp : String) (hne : articles ≠ []) :
    (∃ a, groupAndRewriteArticles articles language diff (some resp) = [a] ∧
      a.topics = unionTopics articles ∧
      (∀ t, t ∈ a.topics ↔ ∃ b ∈ articles, t ∈ b.topics)) ∧
    groupAndRewriteArticles articles language diff none = articles := by
  constructor
  · refine ⟨_, by rw [groupAndRewriteArticles, if_neg hne], rfl, ?_⟩
    intro t
    exact mem_unionTopics t articles
  · rw [groupAndRewriteArticles, if_neg hne]

theorem claim_C1_synthesis_output_witness :
    ([sampleSourceArticle] ≠ []) ∧
    groupAndRewriteArticles [sampleSourceArticle] "en" "beginner" none =
      [sampleSourceArticle] :=
  ⟨by decide,
    (claim_C1_synthesis_output [sampleSourceArticle] "en" "beginner" sampleResponse
      (by decide)).2⟩

/-! ## Tagging (`src/src/models/database.py` and `extract_tags_from_article`)

Mongo's tags collection is a list of `TagDoc`; ObjectIds are modelled by
counter-generated strings.  The articles collection is modelled here by the
association-relevant view `ArticleDoc` (`_id` and `tag_ids`); the bulk
pipeline's view of the same collection is modelled separately below. -/

/-- A tag document as created by `DatabaseService.create_tag`
(database.py lines 517-527); `created_at`/`updated_at` timestamps are not
modelled (no claim mentions them). -/
structure TagDoc where
  id : String
  name : String
  languageSpecific : Bool
  translations : List (String × String)
  originalLanguage : String
  articleCount : ℤ
  active : Bool
  autoApproved : Bool
  deriving DecidableEq, Repr

/-- The association-relevant view of one article document. -/
structure ArticleDoc where
  id : String
  tagIds : List String
  deriving DecidableEq, Repr

/-- The tag and article collections plus the ObjectId counter. -/
structure TagStore where
  tags : List TagDoc
  articles : List ArticleDoc
  nextId : ℕ
  deriving DecidableEq, Repr

/-- `DatabaseService.add_tag_to_article` (database.py lines 590-607):
`$addToSet` the tag id on the article, then unconditionally `$inc` the tag's
`article_count` by 1.  Returns whether both updates modified a document
(`$addToSet` modifies only when the id was absent; `$inc` modifies whenever
the tag document exists). -/
def addTagToArticle (st : TagStore) (tagId articleId : String) : TagStore × Bool :=
  let articleModified := st.articles.any fun a => a.id == articleId && !(a.tagIds.contains tagId)
  let articles := st.articles.map fun a =>
    if a.id == articleId then
      if tagId ∈ a.tagIds then a else { a with tagIds := a.tagIds ++ [tagId] }
    else a
  let tagModified := st.tags.any fun t => t.id == tagId
  let tags := st.tags.map fun t =>
    if t.id == tagId then { t with articleCount := t.articleCount + 1 } else t
  (⟨tags, articles, st.nextId⟩, articleModified && tagModified)

/-- `DatabaseService.remove_tag_from_article` (database.py lines 609-626):
`$pull` the tag id from the article, then unconditionally `$inc` the tag's
`article_count` by −1. -/
def removeTagFromArticle (st : TagStore) (tagId articleId : String) : TagStore × Bool :=
  let articleModified := st.articles.any fun a => a.id == articleId && a.tagIds.contains tagId
  let articles := st.articles.map fun a =>
    if a.id == articleId then { a with tagIds := a.tagIds.filter (· ≠ tagId) } else a
  let tagModified := st.tags.any fun t => t.id == tagId
  let tags := st.tags.map fun t =>
    if t.id == tagId then { t with articleCount := t.articleCount - 1 } else t
  (⟨tags, articles, st.nextId⟩, articleModified && tagModified)

/-- The `article_count` of the (first) tag document with the given id. -/
def lookupTagCount (st : TagStore) (tagId : String) : Option ℤ :=
  (st.tags.find? fun t => t.id == tagId).map (·.articleCount)

theorem find?_map_count_shift (tagId : String) (k : ℤ) :
    ∀ (tags : List TagDoc),
      (((tags.map fun t => if t.id == tagId then
          { t with articleCount := t.articleCount + k } else t).find?
        fun t => t.id == tagId).map (·.articleCount)) =
      ((tags.find? fun t => t.id == tagId).map (·.articleCount)).map (· + k)
  | [] => rfl
  | t :: tags => by
    by_cases h : t.id = tagId
    · simp [List.find?, h]
    · simp only [List.map_cons]
      rw [if_neg (by simpa using h)]
      rw [List.find?_cons_of_neg _ (by simpa using h),
        List.find?_cons_of_neg _ (by simpa using h)]
      exact find?_map_count_shift tagId k tags

/-- A store holding one tag with `article_count = 0` and no article
associations. -/
def sampleTagStore : TagStore :=
  ⟨[⟨"t1", "technology", false, [], "en", 0, true, true⟩], [], 1⟩

/-- **C10.** `add_tag_to_article` always shifts the tag's `article_count` by
exactly +1 and `remove_tag_from_article` by exactly −1, for every article-side
situation (tag already present, tag absent, article nonexistent — the
statement quantifies over all stores and article ids); consequently unmatched
calls drive `article_count` away from the true association count, including
below zero: removing a never-associated tag from `sampleTagStore` leaves a
count of −1 with no associations at all. -/
theorem claim_C10_article_count_shift :
    (∀ (st : TagStore) (tagId articleId : String),
      lookupTagCount (addTagToArticle st tagId articleId).1 tagId =
        (lookupTagCount st tagId).map (· + 1) ∧
      lookupTagCount (removeTagFromArticle st tagId articleId).1 tagId =
        (lookupTagCount st tagId).map (· - 1)) ∧
    lookupTagCount (removeTagFromArticle sampleTagStore "t1" "a9").1 "t1" =
      some (-1) ∧
    (removeTagFromArticle sampleTagStore "t1" "a9").1.articles = [] := by
  refine ⟨fun st tagId articleId => ⟨?_, ?_⟩, by decide, by decide⟩
  · exact find?_map_count_shift tagId 1 st.tags
  · have := find?_map_count_shift tagId (-1) st.tags
    simpa [lookupTagCount, removeTagFromArticle, sub_eq_add_neg] using this

/-- The language-code whitelist of `create_tag` (database.py line 495). -/
def languageCodes : List String :=
  ["en", "ko", "fr", "es", "de", "ja", "zh", "ru", "pt", "ar", "hi", "bn", "it"]

/-- The language-name whitelist (database.py lines 496-497). -/
def languageNames : List String :=
  ["english", "korean", "french", "spanish", "german", "japanese", "chinese",
   "russian", "portuguese", "arabic", "hindi", "bengali", "italian"]

/-- The auto-approved standard categories (database.py lines 500-510). -/
def autoApprovedCategories : List String :=
  ["news", "politics", "technology", "science", "health", "business", "economy",
   "entertainment", "sports", "education", "environment", "culture", "art",
   "food", "travel", "religion", "history", "literature", "fashion", "music",
   "film", "television", "automotive", "finance", "lifestyle", "social_issues",
   "international", "crime",
   "뉴스", "정치", "기술", "과학", "건강", "경제", "비즈니스", "엔터테인먼트", "스포츠",
   "noticias", "política", "tecnología", "ciencia", "salud", "negocios",
   "actualités", "politique", "technologie", "santé", "affaires"]

/-- Python `dict.update`: override existing keys in place, append new ones. -/
def updateTranslations (m new : List (String × String)) : List (String × String) :=
  new.foldl
    (fun acc kv =>
      if acc.any fun p => p.1 == kv.1 then
        acc.map fun p => if p.1 == kv.1 then (p.1, kv.2) else p
      else acc ++ [kv])
    m

/-- `DatabaseService.create_tag` (database.py lines 460-535): canonical name
is the lowercased `english_name` when one is given (Python truthiness: an
empty string falls back to `name`), translations gain the original-language
form when `language != "en"`, it is absent, and `english_name is not None`;
the tag is auto-approved for language codes/names and whitelisted categories;
then the new document is inserted and `add_tag_to_article` runs per associated
article id. -/
def create_tag (st : TagStore) (name language : String) (englishName : Option String)
    (translations : Option (List (String × String))) (articleIds : List String)
    (autoApprove : Bool) : TagDoc × TagStore :=
  let canonicalName := match englishName with
    | some en => if en ≠ "" then pyLower en else pyLower name
    | none => pyLower name
  let tr := translations.getD []
  let tr :=
    if language ≠ "en" ∧ (tr.all fun p => p.1 ≠ language) ∧ englishName ≠ none then
      tr ++ [(language, pyLower name)]
    else tr
  let isAutoApproved := autoApprove ||
    languageCodes.contains (pyLower canonicalName) ||
    languageNames.contains (pyLower canonicalName) ||
    autoApprovedCategories.contains (pyLower canonicalName)
  let doc : TagDoc :=
    { id := "oid-" ++ toString st.nextId, name := canonicalName,
      languageSpecific := language != "en", translations := tr,
      originalLanguage := language, articleCount := articleIds.length,
      active := isAutoApproved, autoApproved := isAutoApproved }
  let st : TagStore := { st with tags := st.tags ++ [doc], nextId := st.nextId + 1 }
  let st := articleIds.foldl (fun s aid => (addTagToArticle s doc.id aid).1) st
  (doc, st)

/-- `DatabaseService.get_tags(query=…)` with no language filter
(database.py lines 556-588): the `$or` of a case-insensitive `.*query.*` regex
on `name` and the same regex against the `translations` subdocument; a regex
never matches an embedded document, so the filter reduces to the name match.
Regex metacharacters are modelled as literal text (none appear in any claim's
tags). -/
def getTagsByQuery (tags : List TagDoc) (query : String) : List TagDoc :=
  tags.filter fun t => pyContains (pyLower t.name) (pyLower query)

/-- `DatabaseService.update_tag` restricted to the `translations` update
performed by `extract_tags_from_article` (database.py lines 691-708;
`article_count` is stripped from updates, and only `translations` is passed
here). -/
def updateTagTranslations (st : TagStore) (tagId : String)
    (tr : List (String × String)) : TagStore :=
  { st with tags := st.tags.map fun t =>
      if t.id == tagId then { t with translations := tr } else t }

/-- One tag object produced by `TagGenerator.generate_tags`
(tag_generator.py lines 278-296): English canonical `name`, the
`original_language`, and the original-language `translations`. -/
structure TagObj where
  name : String
  originalLanguage : String
  translations : List (String × String)
  deriving DecidableEq, Repr

/-- The per-tag body of `extract_tags_from_article` (main.py lines 1336-1365):
look up tags whose name case-insensitively matches, reuse the first exact
(case-insensitive) match — merging any new translations via `update_tag` —
and only otherwise `create_tag` a new document. -/
def storeTagObj (st : TagStore) (obj : TagObj) : TagStore × String :=
  let existingTags := getTagsByQuery st.tags obj.name
  match existingTags.find? fun t => pyLower t.name == pyLower obj.name with
  | some t =>
    let st :=
      if obj.translations ≠ [] then
        let updated := updateTranslations t.translations obj.translations
        if updated ≠ t.translations then updateTagTranslations st t.id updated else st
      else st
    (st, t.id)
  | none =>
    let ds := create_tag st obj.name obj.originalLanguage none (some obj.translations) [] false
    (ds.2, ds.1.id)

theorem isPrefixOf_refl : ∀ l : List Char, l.isPrefixOf l = true
  | [] => rfl
  | c :: l => by simp [List.isPrefixOf, isPrefixOf_refl l]

theorem containsSub_refl (l : List Char) : containsSub l l = true := by
  cases l with
  | nil => rfl
  | cons c rest => simp [containsSub, isPrefixOf_refl]

theorem length_storeTagObj_of_match (st : TagStore) (obj : TagObj)
    (h : ∃ t ∈ st.tags, pyLower t.name = pyLower obj.name) :
    (storeTagObj st obj).1.tags.length = st.tags.length ∧
    (storeTagObj st obj).1.tags.map (·.name) = st.tags.map (·.name) := by
  obtain ⟨t, ht, hname⟩ := h
  have hfilter : t ∈ getTagsByQuery st.tags obj.name := by
    refine List.mem_filter.mpr ⟨ht, ?_⟩
    simp only [pyContains, hname]
    exact containsSub_refl _
  have hfind : ((getTagsByQuery st.tags obj.name).find? fun t' =>
      pyLower t'.name == pyLower obj.name).isSome := by
    rw [List.find?_isSome]
    exact ⟨t, hfilter, by simp [hname]⟩
  obtain ⟨t', hfind'⟩ := Option.isSome_iff_exists.mp hfind
  have hmap : ∀ tr : List (String × String),
      ((updateTagTranslations st t'.id tr).tags.length = st.tags.length ∧
       (updateTagTranslations st t'.id tr).tags.map (·.name) = st.tags.map (·.name)) := by
    intro tr
    constructor
    · simp [updateTagTranslations]
    · simp only [updateTagTranslations, List.map_map]
      apply List.map_congr_left
      intro x _
      by_cases hx : x.id = t'.id <;> simp [hx]
  unfold storeTagObj
  simp only [hfind']
  by_cases h1 : obj.translations ≠ []
  · rw [if_pos h1]
    by_cases h2 : updateTranslations t'.translations obj.translations ≠ t'.translations
    · rw [if_pos h2]
      exact hmap _
    · rw [if_neg h2]
      exact ⟨rfl, rfl⟩
  · rw [if_neg h1]
    exact ⟨rfl, rfl⟩

/-- The tag objects of the C8 scenario: `("기술", language=ko,
englishName="technology")` arrives from the generator as canonical name
`technology` with translation `ko → 기술`; `("technology", language=en)`
arrives with no translations. -/
def koTagObj : TagObj := ⟨"technology", "ko", [("ko", "기술")]⟩

def enTagObj : TagObj := ⟨"technology", "en", []⟩

/-- The store after creating the Korean tag and then the English tag. -/
def tagScenarioStore : TagStore :=
  (storeTagObj (storeTagObj ⟨[], [], 0⟩ koTagObj).1 enTagObj).1

/-- **C8.** Creating tag ("기술", ko, english "technology") and then tag
("technology", en) yields a single canonical tag whose `translations["ko"]`
is "기술"; in general, whenever a tag with a case-insensitively matching
canonical name exists, its identity is reused and translations merged instead
of a second document being created. -/
theorem claim_C8_tag_dedup :
    tagScenarioStore.tags.map (·.name) = ["technology"] ∧
    (tagScenarioStore.tags.map fun t => t.translations.lookup "ko") = [some "기술"] ∧
    (∀ (st : TagStore) (obj : TagObj),
      (∃ t ∈ st.tags, pyLower t.name = pyLower obj.name) →
      (storeTagObj st obj).1.tags.length = st.tags.length ∧
      (storeTagObj st obj).1.tags.map (·.name) = st.tags.map (·.name)) := by
  refine ⟨by decide, by decide, length_storeTagObj_of_match⟩

theorem claim_C8_tag_dedup_witness :
    (∃ t ∈ tagScenarioStore.tags, pyLower t.name = pyLower enTagObj.name) ∧
    (storeTagObj tagScenarioStore enTagObj).1.tags.length =
      tagScenarioStore.tags.length :=
  ⟨by decide,
    (claim_C8_tag_dedup.2.2 tagScenarioStore enTagObj (by decide)).1⟩

/-! ## Bulk operation orchestrator (`src/src/api/main.py`)

The operation dictionary of `bulk_fetch_operations[operation_id]`
(lines 827-840) becomes `BulkOp`; log lines carry wall-clock timestamps and
are modelled as a count.  The articles collection is seen here through the
bulk-pipeline view `BulkRec`. -/

/-- The duck-typed article object that `fetch_step` receives from
`fetch_rss_articles` (optional attributes read with `hasattr` become plain
fields; an absent attribute is an empty value). -/
structure RawArticle where
  title : String
  url : String
  source : String
  text : String
  content : List ContentSection
  topics : List String
  deriving DecidableEq, Repr

/-- One document of the articles collection as written by the bulk pipeline:
the raw record of main.py lines 1001-1030 or the rewritten record of
lines 1256-1273. -/
structure BulkRec where
  id : String
  url : String
  title : String
  source : String
  text : String
  topics : List String
  sections : List ContentSection
  contentType : String
  difficulty : String := ""
  tagIds : List String := []
  rewritten : Bool := false
  grouped : Bool := false
  deriving DecidableEq, Repr

/-- The bulk operation object (main.py lines 827-840). -/
structure BulkOp where
  status : String
  error : Option String
  logs : ℕ
  language : String
  fetchOnly : Bool
  processSteps : List String
  completed : Bool
  articlesProcessed : ℕ
  articlesCached : ℕ
  articlesFetched : ℕ
  articlesSkipped : ℕ
  articlesPrepared : ℕ
  articlesRewritten : ℕ
  deriving DecidableEq, Repr

/-- The operation as initialized by the `/bulk-fetch` endpoint
(lines 827-840): status `running`, one starting log line, zeroed counters. -/
def initOp (language : String) (fetchOnly : Bool) (steps : List String) : BulkOp :=
  { status := "running", error := none, logs := 1, language := language,
    fetchOnly := fetchOnly, processSteps := steps, completed := false,
    articlesProcessed := 0, articlesCached := 0, articlesFetched := 0,
    articlesSkipped := 0, articlesPrepared := 0, articlesRewritten := 0 }

/-- Modelled from the spec: `fetch_rss_articles` is absent from
`src/src/api/main.py` although `tests/unit/test_bulk_fetch.py` and
`scripts/trigger_rewrite.py` import it from there.  Per spec §4.5, the fetch
phase runs Discovery for the language and then Extraction concurrently over
the candidate URLs (fan-out/join), and a failed individual extraction does not
cancel its siblings: the per-URL outcomes are supplied and the failures are
dropped. -/
def fetch_rss_articles (extractionOutcomes : List (Option RawArticle)) :
    List RawArticle :=
  extractionOutcomes.filterMap id

/-- Modelled from the spec: `extract_topics_from_article` is absent from
`src/src/api/main.py` (called at line 998 and imported by
`scripts/trigger_rewrite.py`).  Per spec §3/§4.2, an `ExtractedArticle`
carries its `topics`, so the stored raw record's topics are the article's
own. -/
def extract_topics_from_article (a : RawArticle) : List String := a.topics

/-- The text-content check of `fetch_step` (main.py lines 925-942): over 100
characters of stripped text, or some section with over 50 characters of
stripped content. -/
def articleHasText (a : RawArticle) : Bool :=
  (a.text != "" && decide ((pyStrip a.text).length > 100)) ||
  (a.content.any fun s => s.content != "" && decide ((pyStrip s.content).length > 50))

/-- The raw record stored for a new article (main.py lines 1001-1030):
`_id = f"{operation_id}-{lang}-{i}"`, sections kept when non-empty (captions
are dropped by the source), `grouped = False`. -/
def rawRecordFor (opId lang : String) (i : ℕ) (a : RawArticle) : BulkRec :=
  { id := opId ++ "-" ++ lang ++ "-" ++ toString i, url := a.url, title := a.title,
    source := a.source, text := a.text, topics := extract_topics_from_article a,
    sections := a.content.filterMap fun s =>
      if s.content != "" then some ⟨s.type, s.content, none, s.order⟩ else none,
    contentType := "raw" }

/-- The `ArticleContent`-like object rebuilt from an existing record for
grouping (main.py lines 976-985). -/
def articleFromRec (r : BulkRec) : RawArticle :=
  { title := r.title, url := r.url, source := r.source, text := r.text,
    content := r.sections, topics := r.topics }

/-- The per-language loop state of `fetch_step`. -/
structure FetchLoopState where
  op : BulkOp
  db : List BulkRec
  collected : List RawArticle
  rawCount : ℕ
  dedupCount : ℕ
  deriving Repr

/-- The per-article loop of `fetch_step` (main.py lines 881-1048): skip an
article missing URL/title or text content; treat an existing URL as
already-processed (skip counter, and include the stored record for grouping
when the operation will aggregate and the record is not yet grouped);
otherwise persist the raw record and keep the article for the next steps. -/
def fetchArticleStep (opId lang : String) (i : ℕ) (a : RawArticle)
    (st : FetchLoopState) : FetchLoopState :=
  if !(a.url != "" && a.title != "") then
        { st with op := { st.op with
            articlesSkipped := st.op.articlesSkipped + 1, logs := st.op.logs + 1 } }
      else if !articleHasText a then
        { st with op := { st.op with
            articlesSkipped := st.op.articlesSkipped + 1, logs := st.op.logs + 1 } }
      else
        match st.db.find? fun r => r.url == a.url with
        | some existing =>
          let st1 : FetchLoopState := { st with
            op := { st.op with
              articlesSkipped := st.op.articlesSkipped + 1, logs := st.op.logs + 1 },
            dedupCount := st.dedupCount + 1 }
          if existing.grouped then st1
          else if !st1.op.fetchOnly && st1.op.processSteps.contains "aggregate" then
            { st1 with
              collected := st1.collected ++ [articleFromRec existing]
              op := { st1.op with logs := st1.op.logs + 1 } }
          else st1
        | none =>
          { st with
            db := st.db ++ [rawRecordFor opId lang i a],
            op := { st.op with
              articlesFetched := st.op.articlesFetched + 1, logs := st.op.logs + 1 },
            rawCount := st.rawCount + 1,
            collected := st.collected ++ [a] }

def fetchLoop (opId lang : String) : List RawArticle → ℕ → FetchLoopState → FetchLoopState
  | [], _, st => st
  | a :: rest, i, st =>
    fetchLoop opId lang rest (i + 1) (fetchArticleStep opId lang i a st)

/-- The per-language body of `fetch_step` (main.py lines 869-1051). -/
def fetchLang (opId lang : String) (extracted : String → List (Option RawArticle))
    (op : BulkOp) (db : List BulkRec) : FetchLoopState :=
  let rss := fetch_rss_articles (extracted lang)
  let st := fetchLoop opId lang rss 0
    ⟨{ op with logs := op.logs + 3 }, db, [], 0, 0⟩
  { st with op := { st.op with
      articlesCached := st.op.articlesCached + st.rawCount, logs := st.op.logs + 1 } }

/-- `fetch_step` (main.py lines 856-1058): process `["ko", "en"]` for
`language == "all"`, else the single language; collect the per-language
articles; finally `operation["articles_fetched"] = articles_added` and
`operation["articles_skipped"] = articles_skipped` write back the local
variables of lines 865-866, which the source never increments, so both
counters end at 0. -/
def fetchLangsLoop (opId : String) (extracted : String → List (Option RawArticle)) :
    List String → BulkOp → List BulkRec → List (String × List RawArticle) →
    List (String × List RawArticle) × BulkOp × List BulkRec
  | [], op, db, acc => (acc, op, db)
  | lang :: rest, op, db, acc =>
    let st := fetchLang opId lang extracted op db
    let acc := if st.collected ≠ [] then acc ++ [(lang, st.collected)] else acc
    fetchLangsLoop opId extracted rest st.op st.db acc

def fetchStep (opId : String) (op : BulkOp)
    (extracted : String → List (Option RawArticle)) (db : List BulkRec) :
    List (String × List RawArticle) × BulkOp × List BulkRec :=
  let langs := if op.language == "all" then ["ko", "en"] else [op.language]
  let r := fetchLangsLoop opId extracted langs { op with logs := op.logs + 1 } db []
  (r.1, { r.2.1 with articlesFetched := 0, articlesSkipped := 0 }, r.2.2)

/-- `aggregate_step` (main.py lines 1197-1214): pass articles through by
language, dropping empty languages, and count them. -/
def aggregateStep (op : BulkOp) (fetched : List (String × List RawArticle)) :
    List (String × List RawArticle) × BulkOp :=
  let prepared := fetched.filter fun la => la.2 ≠ []
  (prepared,
    { op with
      articlesPrepared := (prepared.map fun la => la.2.length).sum,
      logs := op.logs + fetched.length + 1 })

/-- The three difficulty levels of `rewrite_step` (main.py line 1220). -/
def difficulties : List String := ["beginner", "intermediate", "advanced"]

/-- The state threaded through `rewrite_step`, counting every invocation of
Tagging (`extract_tags_from_article`) and of Synthesis
(`agent.rewrite_article_content`). -/
structure RewriteState where
  op : BulkOp
  db : List BulkRec
  rewrittenCount : ℕ
  tagCalls : ℕ
  synthCalls : ℕ
  deriving Repr

/-- `update_one({"_id": article.url}, {"$set": {"rewritten": True}})`
(main.py lines 1281-1284).  The filter matches `_id` against the article URL,
but `fetch_step` stored `_id = f"{operation_id}-{lang}-{i}"`, so for records
created by this pipeline nothing matches and the flag is never actually set. -/
def markRewritten (db : List BulkRec) (url : String) : List BulkRec :=
  db.map fun r => if r.id == url then { r with rewritten := true } else r

/-- The per-difficulty inner loop of `rewrite_step` (main.py lines 1245-1278).
`rewriteOutcome a d` is the observed result of
`agent.rewrite_article_content(article, difficulty)`: `some doc` on success,
`none` when the call raised or returned nothing — both are caught/logged and
the loop continues.  `ContentAgent` defines no `rewrite_article_content`
method, so against the source as it stands every invocation raises
`AttributeError` and the outcome is always `none`; the parameter keeps the
model general.  A success is stored with `_id = f"{article.url}-{difficulty}"`
and `content_type = "rewritten_article"` carrying the tag ids. -/
def rewriteDifficulties (a : RawArticle) (tagIds : List String)
    (rewriteOutcome : RawArticle → String → Option BulkRec) :
    List String → RewriteState → RewriteState
  | [], st => st
  | d :: ds, st =>
    let st := { st with synthCalls := st.synthCalls + 1,
                        op := { st.op with logs := st.op.logs + 1 } }
    let st :=
      match rewriteOutcome a d with
      | some doc =>
        { st with
          db := st.db ++ [{ doc with
            id := a.url ++ "-" ++ d, url := a.url,
            contentType := "rewritten_article", difficulty := d,
            tagIds := tagIds }]
          rewrittenCount := st.rewrittenCount + 1
          op := { st.op with logs := st.op.logs + 1 } }
      | none => { st with op := { st.op with logs := st.op.logs + 1 } }
    rewriteDifficulties a tagIds rewriteOutcome ds st

/-- The per-article loop of `rewrite_step` (main.py lines 1232-1286).
`tagsFor a` is the `tag_ids` list returned by `extract_tags_from_article`,
whose own `try/except` returns an empty list instead of raising; an empty
list skips the article.  After the difficulty loop the source article is
marked rewritten (see `markRewritten`).  Exceptions inside the body are
caught by the per-article `except` (lines 1285-1286) — in this embedding the
body is total, so nothing escapes. -/
def rewriteArticles (tagsFor : RawArticle → List String)
    (rewriteOutcome : RawArticle → String → Option BulkRec) :
    List RawArticle → RewriteState → RewriteState
  | [], st => st
  | a :: as, st =>
    let tagIds := tagsFor a
    let st := { st with tagCalls := st.tagCalls + 1,
                        op := { st.op with logs := st.op.logs + 2 } }
    let st :=
      if tagIds = [] then { st with op := { st.op with logs := st.op.logs + 1 } }
      else
        let st := rewriteDifficulties a tagIds rewriteOutcome difficulties st
        { st with db := markRewritten st.db a.url }
    rewriteArticles tagsFor rewriteOutcome as st

/-- The per-language outer loop of `rewrite_step` (main.py lines 1224-1286). -/
def rewriteGroups (tagsFor : RawArticle → List String)
    (rewriteOutcome : RawArticle → String → Option BulkRec) :
    List (String × List RawArticle) → RewriteState → RewriteState
  | [], st => st
  | (_, arts) :: rest, st =>
    let st := { st with op := { st.op with logs := st.op.logs + 1 } }
    let st := if arts = [] then st else rewriteArticles tagsFor rewriteOutcome arts st
    rewriteGroups tagsFor rewriteOutcome rest st

/-- `rewrite_step` (main.py lines 1216-1289). -/
def rewriteStep (op : BulkOp) (groups : List (String × List RawArticle))
    (tagsFor : RawArticle → List String)
    (rewriteOutcome : RawArticle → String → Option BulkRec)
    (db : List BulkRec) : RewriteState :=
  let st := rewriteGroups tagsFor rewriteOutcome groups ⟨op, db, 0, 0, 0⟩
  { st with op := { st.op with articlesRewritten := st.rewrittenCount } }

/-- The `except` handler of `process_bulk_fetch` (main.py lines 1190-1195):
an exception escaping a phase sets status `failed`, captures the message as
`error`, and appends a log line — the persisted records are not touched. -/
def bulkFetchOnError (op : BulkOp) (msg : String) : BulkOp :=
  { op with status := "failed", error := some msg, logs := op.logs + 1 }

/-- The result of a bulk run: the final operation object, the final articles
collection, and the number of Tagging and Synthesis invocations. -/
structure BulkRunResult where
  op : BulkOp
  db : List BulkRec
  tagCalls : ℕ
  synthCalls : ℕ
  deriving Repr

/-- `process_bulk_fetch` (main.py lines 1148-1195): always run `fetch_step`;
stop with status `completed` when `fetch_only` is set or exactly `["fetch"]`
was requested (lines 1163-1169); otherwise run `aggregate_step` when
`aggregate` is among the steps, run `rewrite_step` when `rewrite` is among
the steps and articles were prepared, and finish with status `completed`.
In this embedding no phase raises, so the `except` branch is exercised
through `bulkFetchOnError`. -/
def processBulkFetch (language : String) (fetchOnly : Bool) (steps : List String)
    (opId : String) (extracted : String → List (Option RawArticle))
    (tagsFor : RawArticle → List String)
    (rewriteOutcome : RawArticle → String → Option BulkRec)
    (db : List BulkRec) : BulkRunResult :=
  let op := initOp language fetchOnly steps
  let f := fetchStep opId { op with logs := op.logs + 2 } extracted db
  let op := { f.2.1 with logs := f.2.1.logs + 1 }
  if op.fetchOnly || op.processSteps == ["fetch"] then
    ⟨{ op with status := "completed", completed := true, logs := op.logs + 1 },
      f.2.2, 0, 0⟩
  else
    let pa := if op.processSteps.contains "aggregate" then
        aggregateStep op f.1
      else ([], op)
    if op.processSteps.contains "rewrite" && pa.1 ≠ [] then
      let st := rewriteStep pa.2 pa.1 tagsFor rewriteOutcome f.2.2
      ⟨{ st.op with status := "completed", completed := true, logs := st.op.logs + 2 },
        st.db, st.tagCalls, st.synthCalls⟩
    else
      ⟨{ pa.2 with status := "completed", completed := true, logs := pa.2.logs + 2 },
        f.2.2, 0, 0⟩

/-! ## C2/C7: what the phases may change -/

/-- The phases only touch counters and logs on the operation object: status,
error, and the request fields are left alone until the final transition. -/
def CountersOnly (o o' : BulkOp) : Prop :=
  o'.status = o.status ∧ o'.error = o.error ∧ o'.fetchOnly = o.fetchOnly ∧
  o'.processSteps = o.processSteps ∧ o'.language = o.language

theorem countersOnly_refl (o : BulkOp) : CountersOnly o o := ⟨rfl, rfl, rfl, rfl, rfl⟩

theorem countersOnly_trans {o o' o'' : BulkOp} (h : CountersOnly o o')
    (h' : CountersOnly o' o'') : CountersOnly o o'' :=
  ⟨h'.1.trans h.1, h'.2.1.trans h.2.1, h'.2.2.1.trans h.2.2.1,
    h'.2.2.2.1.trans h.2.2.2.1, h'.2.2.2.2.trans h.2.2.2.2⟩

theorem countersOnly_fetchArticleStep (opId lang : String) (i : ℕ) (a : RawArticle)
    (st : FetchLoopState) : CountersOnly st.op (fetchArticleStep opId lang i a st).op := by
  unfold fetchArticleStep
  split
  · exact ⟨rfl, rfl, rfl, rfl, rfl⟩
  split
  · exact ⟨rfl, rfl, rfl, rfl, rfl⟩
  split
  · dsimp only
    split
    · exact ⟨rfl, rfl, rfl, rfl, rfl⟩
    split
    · exact ⟨rfl, rfl, rfl, rfl, rfl⟩
    · exact ⟨rfl, rfl, rfl, rfl, rfl⟩
  · exact ⟨rfl, rfl, rfl, rfl, rfl⟩

theorem countersOnly_fetchLoop (opId lang : String) :
    ∀ (arts : List RawArticle) (i : ℕ) (st : FetchLoopState),
      CountersOnly st.op (fetchLoop opId lang arts i st).op
  | [], _, st => countersOnly_refl st.op
  | a :: rest, i, st => by
    rw [fetchLoop]
    exact countersOnly_trans (countersOnly_fetchArticleStep opId lang i a st)
      (countersOnly_fetchLoop opId lang rest (i + 1) _)

theorem countersOnly_fetchLang (opId lang : String)
    (extracted : String → List (Option RawArticle)) (op : BulkOp)
    (db : List BulkRec) : CountersOnly op (fetchLang opId lang extracted op db).op := by
  unfold fetchLang
  have h := countersOnly_fetchLoop opId lang (fetch_rss_articles (extracted lang)) 0
    ⟨{ op with logs := op.logs + 3 }, db, [], 0, 0⟩
  exact countersOnly_trans (countersOnly_trans ⟨rfl, rfl, rfl, rfl, rfl⟩ h)
    ⟨rfl, rfl, rfl, rfl, rfl⟩

theorem countersOnly_fetchLangsLoop (opId : String)
    (extracted : String → List (Option RawArticle)) :
    ∀ (langs : List String) (op : BulkOp) (db : List BulkRec)
      (acc : List (String × List RawArticle)),
      CountersOnly op (fetchLangsLoop opId extracted langs op db acc).2.1
  | [], op, db, acc => countersOnly_refl op
  | lang :: rest, op, db, acc => by
    rw [fetchLangsLoop]
    exact countersOnly_trans (countersOnly_fetchLang opId lang extracted op db)
      (countersOnly_fetchLangsLoop opId extracted rest _ _ _)

theorem countersOnly_fetchStep (opId : String) (op : BulkOp)
    (extracted : String → List (Option RawArticle)) (db : List BulkRec) :
    CountersOnly op (fetchStep opId op extracted db).2.1 := by
  unfold fetchStep
  have h := countersOnly_fetchLangsLoop opId extracted
    (if (op.language == "all") = true then ["ko", "en"] else [op.language])
    { op with logs := op.logs + 1 } db []
  exact ⟨h.1, h.2.1, h.2.2.1, h.2.2.2.1, h.2.2.2.2⟩

theorem countersOnly_aggregateStep (op : BulkOp)
    (fetched : List (String × List RawArticle)) :
    CountersOnly op (aggregateStep op fetched).2 := ⟨rfl, rfl, rfl, rfl, rfl⟩

theorem countersOnly_rewriteDifficulties (a : RawArticle) (tagIds : List String)
    (rewriteOutcome : RawArticle → String → Option BulkRec) :
    ∀ (ds : List String) (st : RewriteState),
      CountersOnly st.op (rewriteDifficulties a tagIds rewriteOutcome ds st).op
  | [], st => countersOnly_refl st.op
  | d :: ds, st => by
    rw [rewriteDifficulties]
    refine countersOnly_trans ?_ (countersOnly_rewriteDifficulties a tagIds
      rewriteOutcome ds _)
    match rewriteOutcome a d with
    | some doc => exact ⟨rfl, rfl, rfl, rfl, rfl⟩
    | none => exact ⟨rfl, rfl, rfl, rfl, rfl⟩

theorem countersOnly_rewriteArticles (tagsFor : RawArticle → List String)
    (rewriteOutcome : RawArticle → String → Option BulkRec) :
    ∀ (arts : List RawArticle) (st : RewriteState),
      CountersOnly st.op (rewriteArticles tagsFor rewriteOutcome arts st).op
  | [], st => countersOnly_refl st.op
  | a :: rest, st => by
    rw [rewriteArticles]
    refine countersOnly_trans ?_ (countersOnly_rewriteArticles tagsFor
      rewriteOutcome rest _)
    by_cases h : tagsFor a = []
    · rw [if_pos h]
      exact ⟨rfl, rfl, rfl, rfl, rfl⟩
    · rw [if_neg h]
      refine countersOnly_trans (countersOnly_trans
        (⟨rfl, rfl, rfl, rfl, rfl⟩ : CountersOnly st.op _) ?_) ⟨rfl, rfl, rfl, rfl, rfl⟩
      exact countersOnly_rewriteDifficulties a (tagsFor a) rewriteOutcome difficulties _

theorem countersOnly_rewriteGroups (tagsFor : RawArticle → List String)
    (rewriteOutcome : RawArticle → String → Option BulkRec) :
    ∀ (groups : List (String × List RawArticle)) (st : RewriteState),
      CountersOnly st.op (rewriteGroups tagsFor rewriteOutcome groups st).op
  | [], st => countersOnly_refl st.op
  | (lang, arts) :: rest, st => by
    rw [rewriteGroups]
    refine countersOnly_trans ?_ (countersOnly_rewriteGroups tagsFor rewriteOutcome rest _)
    by_cases h : arts = []
    · rw [if_pos h]
      exact ⟨rfl, rfl, rfl, rfl, rfl⟩
    · rw [if_neg h]
      exact countersOnly_trans ⟨rfl, rfl, rfl, rfl, rfl⟩
        (countersOnly_rewriteArticles tagsFor rewriteOutcome arts _)

theorem countersOnly_rewriteStep (op : BulkOp) (groups : List (String × List RawArticle))
    (tagsFor : RawArticle → List String)
    (rewriteOutcome : RawArticle → String → Option BulkRec) (db : List BulkRec) :
    CountersOnly op (rewriteStep op groups tagsFor rewriteOutcome db).op := by
  unfold rewriteStep
  exact countersOnly_trans (countersOnly_rewriteGroups tagsFor rewriteOutcome groups
    ⟨op, db, 0, 0, 0⟩) ⟨rfl, rfl, rfl, rfl, rfl⟩

/-- Every record of `db` is still present in `db'`, unchanged except that its
`rewritten` flag may have been switched on; nothing is ever deleted or rolled
back. -/
def PreservesRecs (db db' : List BulkRec) : Prop :=
  ∀ r ∈ db, r ∈ db' ∨ { r with rewritten := true } ∈ db'

theorem preservesRecs_refl (db : List BulkRec) : PreservesRecs db db :=
  fun _ hr => Or.inl hr

theorem preservesRecs_trans {db db' db'' : List BulkRec}
    (h : PreservesRecs db db') (h' : PreservesRecs db' db'') :
    PreservesRecs db db'' := by
  intro r hr
  rcases h r hr with hr' | hr'
  · exact h' r hr'
  · rcases h' _ hr' with hr'' | hr''
    · exact Or.inr hr''
    · exact Or.inr hr''

theorem preservesRecs_append (db xs : List BulkRec) :
    PreservesRecs db (db ++ xs) :=
  fun _ hr => Or.inl (List.mem_append_left _ hr)

theorem preservesRecs_markRewritten (db : List BulkRec) (url : String) :
    PreservesRecs db (markRewritten db url) := by
  intro r hr
  by_cases h : r.id = url
  · right
    have : ({ r with rewritten := true } : BulkRec) =
        (fun r' => if r'.id == url then { r' with rewritten := true } else r') r := by
      simp [h]
    rw [this]
    exact List.mem_map_of_mem _ hr
  · left
    have : r = (fun r' => if r'.id == url then { r' with rewritten := true } else r') r := by
      simp [h]
    rw [markRewritten]
    rw [this]
    exact List.mem_map_of_mem _ hr

theorem preservesRecs_rewriteDifficulties (a : RawArticle) (tagIds : List String)
    (rewriteOutcome : RawArticle → String → Option BulkRec) :
    ∀ (ds : List String) (st : RewriteState),
      PreservesRecs st.db (rewriteDifficulties a tagIds rewriteOutcome ds st).db
  | [], st => preservesRecs_refl st.db
  | d :: ds, st => by
    rw [rewriteDifficulties]
    refine preservesRecs_trans ?_
      (preservesRecs_rewriteDifficulties a tagIds rewriteOutcome ds _)
    match rewriteOutcome a d with
    | some doc => exact preservesRecs_append st.db _
    | none => exact preservesRecs_refl st.db

theorem preservesRecs_rewriteArticles (tagsFor : RawArticle → List String)
    (rewriteOutcome : RawArticle → String → Option BulkRec) :
    ∀ (arts : List RawArticle) (st : RewriteState),
      PreservesRecs st.db (rewriteArticles tagsFor rewriteOutcome arts st).db
  | [], st => preservesRecs_refl st.db
  | a :: rest, st => by
    rw [rewriteArticles]
    refine preservesRecs_trans ?_
      (preservesRecs_rewriteArticles tagsFor rewriteOutcome rest _)
    by_cases h : tagsFor a = []
    · rw [if_pos h]
      exact preservesRecs_refl st.db
    · rw [if_neg h]
      have hd := preservesRecs_rewriteDifficulties a (tagsFor a) rewriteOutcome
        difficulties { st with tagCalls := st.tagCalls + 1,
                               op := { st.op with logs := st.op.logs + 2 } }
      have hm := preservesRecs_markRewritten
        (rewriteDifficulties a (tagsFor a) rewriteOutcome difficulties
          { st with tagCalls := st.tagCalls + 1,
                    op := { st.op with logs := st.op.logs + 2 } }).db a.url
      exact preservesRecs_trans hd hm

theorem preservesRecs_rewriteGroups (tagsFor : RawArticle → List String)
    (rewriteOutcome : RawArticle → String → Option BulkRec) :
    ∀ (groups : List (String × List RawArticle)) (st : RewriteState),
      PreservesRecs st.db (rewriteGroups tagsFor rewriteOutcome groups st).db
  | [], st => preservesRecs_refl st.db
  | (lang, arts) :: rest, st => by
    rw [rewriteGroups]
    refine preservesRecs_trans ?_
      (preservesRecs_rewriteGroups tagsFor rewriteOutcome rest _)
    by_cases h : arts = []
    · rw [if_pos h]
      exact preservesRecs_refl st.db
    · rw [if_neg h]
      exact preservesRecs_rewriteArticles tagsFor rewriteOutcome arts
        { st with op := { st.op with logs := st.op.logs + 1 } }

theorem preservesRecs_rewriteStep (op : BulkOp)
    (groups : List (String × List RawArticle)) (tagsFor : RawArticle → List String)
    (rewriteOutcome : RawArticle → String → Option BulkRec) (db : List BulkRec) :
    PreservesRecs db (rewriteStep op groups tagsFor rewriteOutcome db).db :=
  preservesRecs_rewriteGroups tagsFor rewriteOutcome groups ⟨op, db, 0, 0, 0⟩

/-- **C7.** A bulk operation created with `requestedPhases=["fetch"]` (or with
`fetch_only` set) never invokes Tagging or Synthesis — zero calls to either —
and reaches status `completed` once the fetch phase finishes
(main.py lines 1163-1169). -/
theorem claim_C7_fetch_only_no_synthesis (language : String) (fetchOnly : Bool)
    (steps : List String) (opId : String)
    (extracted : String → List (Option RawArticle))
    (tagsFor : RawArticle → List String)
    (rewriteOutcome : RawArticle → String → Option BulkRec) (db : List BulkRec)
    (h : fetchOnly = true ∨ steps = ["fetch"]) :
    (processBulkFetch language fetchOnly steps opId extracted tagsFor rewriteOutcome
      db).op.status = "completed" ∧
    (processBulkFetch language fetchOnly steps opId extracted tagsFor rewriteOutcome
      db).op.completed = true ∧
    (processBulkFetch language fetchOnly steps opId extracted tagsFor rewriteOutcome
      db).tagCalls = 0 ∧
    (processBulkFetch language fetchOnly steps opId extracted tagsFor rewriteOutcome
      db).synthCalls = 0 := by
  have hco := countersOnly_fetchStep opId
    { initOp language fetchOnly steps with
        logs := (initOp language fetchOnly steps).logs + 2 } extracted db
  have hcond : ((fetchStep opId
      { initOp language fetchOnly steps with
          logs := (initOp language fetchOnly steps).logs + 2 } extracted
      db).2.1.fetchOnly ||
      (fetchStep opId
        { initOp language fetchOnly steps with
            logs := (initOp language fetchOnly steps).logs + 2 } extracted
        db).2.1.processSteps == ["fetch"]) = true := by
    rcases h with h | h
    · rw [hco.2.2.1]
      simp [initOp, h]
    · rw [hco.2.2.2.1]
      simp [initOp, h]
  unfold processBulkFetch
  dsimp only
  split
  · exact ⟨rfl, rfl, rfl, rfl⟩
  · next hneg => exact absurd hcond hneg

theorem claim_C7_fetch_only_no_synthesis_witness :
    (false = true ∨ ["fetch"] = ["fetch"]) ∧
    (processBulkFetch "en" false ["fetch"] "op1" (fun _ => []) (fun _ => [])
      (fun _ _ => none) []).op.status = "completed" ∧
    (processBulkFetch "en" false ["fetch"] "op1" (fun _ => []) (fun _ => [])
      (fun _ _ => none) []).tagCalls = 0 ∧
    (processBulkFetch "en" false ["fetch"] "op1" (fun _ => []) (fun _ => [])
      (fun _ _ => none) []).synthCalls = 0 :=
  ⟨Or.inr rfl,
    (claim_C7_fetch_only_no_synthesis "en" false ["fetch"] "op1" (fun _ => [])
      (fun _ => []) (fun _ _ => none) [] (Or.inr rfl)).1,
    (claim_C7_fetch_only_no_synthesis "en" false ["fetch"] "op1" (fun _ => [])
      (fun _ => []) (fun _ _ => none) [] (Or.inr rfl)).2.2.1,
    (claim_C7_fetch_only_no_synthesis "en" false ["fetch"] "op1" (fun _ => [])
      (fun _ => []) (fun _ _ => none) [] (Or.inr rfl)).2.2.2⟩

/-- Every rewrite attempt raising — the behaviour of the source as it stands,
since `ContentAgent` defines no `rewrite_article_content` method. -/
def rewriteAlwaysRaises : RawArticle → String → Option BulkRec := fun _ _ => none

/-- A valid article for the C2 counterexample (non-empty URL and title, more
than 100 characters of text). -/
def c2Article : RawArticle :=
  { title := "Tech news story", url := "https://news.example/a1",
    source := "news.example", text := ⟨List.replicate 101 'a'⟩, content := [],
    topics := ["news"] }

/-- The bulk run in which the rewrite of the one fetched article raises at
every difficulty. -/
def c2Run : BulkRunResult :=
  processBulkFetch "en" false ["fetch", "aggregate", "rewrite"] "op1"
    (fun _ => [some c2Article]) (fun _ => ["oid-1"]) rewriteAlwaysRaises []

/-- **C2 counterexample.** The claim says an operation whose rewrite phase
throws for one article transitions to `Failed` with a non-empty error.  It
does not: the per-difficulty and per-article handlers of `rewrite_step`
(main.py lines 1277-1278, 1285-1286) catch the exception, the article is
skipped, and the operation completes — status `completed`, no error — while
the article's fetch-phase raw record remains persisted and unchanged. -/
theorem claim_C2_counterexample :
    c2Run.op.status = "completed" ∧
    c2Run.op.status ≠ "failed" ∧
    c2Run.op.error = none ∧
    c2Run.synthCalls = 3 ∧
    c2Run.db.map (·.contentType) = ["raw"] ∧
    c2Run.db.map (·.url) = ["https://news.example/a1"] ∧
    c2Run.db.map (·.rewritten) = [false] := by
  refine ⟨by decide, by decide, by decide, by decide, by decide, by decide, by decide⟩

/-- **C2 (amended).** A per-article (or per-difficulty) rewrite exception is
caught and logged: the article is skipped, the operation still transitions to
`completed` with no error, and every record persisted by the fetch phase
remains in the store (at most its `rewritten` flag is switched on; nothing is
deleted or rolled back).  Only an exception escaping a whole phase reaches the
`process_bulk_fetch` handler, which sets status `failed` with the captured
message — and touches no persisted data. -/
theorem claim_C2_rewrite_failure_containment :
    (∀ (language : String) (fetchOnly : Bool) (steps : List String) (opId : String)
      (extracted : String → List (Option RawArticle))
      (tagsFor : RawArticle → List String)
      (rewriteOutcome : RawArticle → String → Option BulkRec) (db : List BulkRec),
      (processBulkFetch language fetchOnly steps opId extracted tagsFor
        rewriteOutcome db).op.status = "completed" ∧
      (processBulkFetch language fetchOnly steps opId extracted tagsFor
        rewriteOutcome db).op.error = none ∧
      PreservesRecs
        (fetchStep opId
          { initOp language fetchOnly steps with
              logs := (initOp language fetchOnly steps).logs + 2 } extracted db).2.2
        (processBulkFetch language fetchOnly steps opId extracted tagsFor
          rewriteOutcome db).db) ∧
    (∀ (op : BulkOp) (msg : String),
      (bulkFetchOnError op msg).status = "failed" ∧
      (bulkFetchOnError op msg).error = some msg) := by
  refine ⟨?_, fun op msg => ⟨rfl, rfl⟩⟩
  intro language fetchOnly steps opId extracted tagsFor rewriteOutcome db
  have hco := countersOnly_fetchStep opId
    { initOp language fetchOnly steps with
        logs := (initOp language fetchOnly steps).logs + 2 } extracted db
  unfold processBulkFetch
  dsimp only
  generalize hF : fetchStep opId
    { initOp language fetchOnly steps with
        logs := (initOp language fetchOnly steps).logs + 2 } extracted db = F at hco ⊢
  split
  · exact ⟨rfl, hco.2.1, preservesRecs_refl _⟩
  · have hAgg : CountersOnly { F.2.1 with logs := F.2.1.logs + 1 }
        (if (({ F.2.1 with logs := F.2.1.logs + 1 } : BulkOp).processSteps.contains
            "aggregate") = true then
          aggregateStep { F.2.1 with logs := F.2.1.logs + 1 } F.1
        else ([], { F.2.1 with logs := F.2.1.logs + 1 })).2 := by
      split
      · exact countersOnly_aggregateStep _ _
      · exact countersOnly_refl _
    generalize hPA : (if (({ F.2.1 with logs := F.2.1.logs + 1 } : BulkOp).processSteps.contains
          "aggregate") = true then
        aggregateStep { F.2.1 with logs := F.2.1.logs + 1 } F.1
      else ([], { F.2.1 with logs := F.2.1.logs + 1 })) = PA at hAgg ⊢
    split
    · refine ⟨rfl, ?_, ?_⟩
      · have hrw := countersOnly_rewriteStep PA.2 PA.1 tagsFor rewriteOutcome F.2.2
        exact hrw.2.1.trans (hAgg.2.1.trans hco.2.1)
      · exact preservesRecs_rewriteStep PA.2 PA.1 tagsFor rewriteOutcome F.2.2
    · exact ⟨rfl, hAgg.2.1.trans hco.2.1, preservesRecs_refl _⟩
